import Mathlib

/-!
Verification of the planet_overlap tiling and pairwise-overlap pipeline.

This file gives a shallow embedding of the algorithmic core of the
repository (src/src/planet_overlap/analysis.py, pagination.py, cli.py and
the prototype src/filters.py) and proves properties of it.

Modelling conventions:
* Python floats are modelled by exact rationals (ℚ).
* Calendar datetimes are modelled by their day number (ℤ): the code only
  uses day differences ((end - start).days) and whole-day steps
  (timedelta(days=k)) on midnight datetimes, so the embedding is exact.
* The shapely geometry library is an external collaborator.  Its interface
  (polygon construction, bounds, intersection, area) is modelled by the
  `GeomOps` structure; pipeline functions are parameterised over an
  arbitrary geometry backend, so theorems about the pipeline logic hold
  for every backend.  For concrete witnesses we instantiate it with
  `SPolygon`, an executable exact-rational polygon type whose
  intersection is Sutherland–Hodgman clipping; on the convex polygons
  used in the witnesses this computes exactly what shapely computes.
* Python exceptions are modelled with `Except` / `Option`.
* numpy n×n matrices are modelled as functions ℕ → ℕ → ℚ that are zero
  outside the index range; in-place assignment is functional update.
-/

namespace PlanetOverlap

/-- Scene properties mapping, as used by the pipeline.  The source accesses
the keys ground_control, quality_category, view_angle, sun_elevation,
instrument, satellite_id, acquired and cloud_cover; they are modelled as
structure fields.  (`dict.get` defaults coincide with the field defaults of
the `Inhabited` instance.) -/
structure Props where
  ground_control : Bool
  quality_category : String
  view_angle : ℚ
  sun_elevation : ℚ
  instrument : String
  satellite_id : String
  acquired : String
  cloud_cover : ℚ
deriving DecidableEq, Inhabited

/-- GeoJSON-style polygon geometry: a list of rings, each a list of
(lon, lat) coordinate pairs.  The source accesses geom["coordinates"][0],
the exterior ring. -/
structure GeoJSONGeom where
  coordinates : List (List (ℚ × ℚ))
deriving DecidableEq, Inhabited

/-- Quality predicate of analysis.filter_quality: the comprehension keeps
index i iff ground_control is truthy, quality_category == "standard",
view_angle < min_view_angle, and the exterior ring has at least min_points
vertices. -/
def keepScene (min_points : ℕ) (min_view_angle : ℚ) (prop : Props) (geom : GeoJSONGeom) : Bool :=
  prop.ground_control
    && (prop.quality_category == "standard")
    && decide (prop.view_angle < min_view_angle)
    && decide (min_points ≤ (geom.coordinates.getD 0 []).length)

/-- Embedding of analysis.filter_quality (src/src/planet_overlap/analysis.py,
lines 8-29): computes the retained index list over range(len(properties))
and maps the three parallel lists through it.  Python defaults are
min_points = 5, min_view_angle = 3. -/
def filter_quality (properties : List Props) (geometries : List GeoJSONGeom)
    (ids : List String) (min_points : ℕ) (min_view_angle : ℚ) :
    List Props × List GeoJSONGeom × List String :=
  let index_sub := (List.range properties.length).filter fun i =>
    keepScene min_points min_view_angle (properties.getD i default) (geometries.getD i default)
  (index_sub.map fun i => properties.getD i default,
   index_sub.map fun i => geometries.getD i default,
   index_sub.map fun i => ids.getD i "")

/-- Step 1 of analysis.process_tiles (lines 133-140): iterate over
zip(all_properties, all_geometries, all_ids), filter each tile with
filter_quality (min_points at its default 5) and extend the merged
parallel lists. -/
def mergeTiles (all_properties : List (List Props))
    (all_geometries : List (List GeoJSONGeom)) (all_ids : List (List String))
    (min_view_angle : ℚ) : List Props × List GeoJSONGeom × List String :=
  (all_properties.zip (all_geometries.zip all_ids)).foldl
    (fun merged t =>
      let f := filter_quality t.1 t.2.1 t.2.2 5 min_view_angle
      (merged.1 ++ f.1, merged.2.1 ++ f.2.1, merged.2.2 ++ f.2.2))
    ([], [], [])

/-- Bounding box of a geometry, in the order shapely's `.bounds` tuple
reports it: (minx, miny, maxx, maxy). -/
structure Bounds where
  minx : ℚ
  miny : ℚ
  maxx : ℚ
  maxy : ℚ
deriving DecidableEq, Inhabited

/-- Interface of the shapely operations the pipeline uses: polygon
construction from an exterior ring, bounding box, intersection and area.
Pipeline functions take the backend as a parameter, so every theorem
about the pipeline logic holds for an arbitrary geometry implementation. -/
structure GeomOps (P : Type) where
  mkPolygon : List (ℚ × ℚ) → P
  bounds : P → Bounds
  inter : P → P → P
  area : P → ℚ

/-- Executable polygon over exact rationals: the exterior ring as a vertex
list (without the GeoJSON closing repetition; a repeated closing vertex is
harmless for all operations below). -/
structure SPolygon where
  ring : List (ℚ × ℚ)
deriving DecidableEq, Inhabited

/-- Cyclic edge list of a ring: each vertex paired with its successor,
the last wrapping to the first. -/
def cycleEdges (l : List (ℚ × ℚ)) : List ((ℚ × ℚ) × (ℚ × ℚ)) :=
  l.zip (l.drop 1 ++ l.take 1)

/-- Twice the signed area of a ring (shoelace sum over the cyclic edge
list). -/
def shoelaceSum (l : List (ℚ × ℚ)) : ℚ :=
  (cycleEdges l).foldl (fun s pq => s + (pq.1.1 * pq.2.2 - pq.2.1 * pq.1.2)) 0

/-- Polygon area, as shapely's `.area`: absolute shoelace sum halved. -/
def SPolygon.area (p : SPolygon) : ℚ :=
  |shoelaceSum p.ring| / 2

/-- Bounding box of a polygon, as shapely's `.bounds`. -/
def SPolygon.bounds (p : SPolygon) : Bounds :=
  match p.ring with
  | [] => ⟨0, 0, 0, 0⟩
  | v :: vs =>
    vs.foldl (fun b q => ⟨min b.minx q.1, min b.miny q.2, max b.maxx q.1, max b.maxy q.2⟩)
      ⟨v.1, v.2, v.1, v.2⟩

/-- Signed side value of point p relative to the directed line a → b:
positive on the left. -/
def sideVal (a b p : ℚ × ℚ) : ℚ :=
  (b.1 - a.1) * (p.2 - a.2) - (b.2 - a.2) * (p.1 - a.1)

/-- Intersection point of segment s-e with the line through a-b (the
callers only use it when the segment crosses the line, where the
denominator is nonzero). -/
def segIntersect (a b s e : ℚ × ℚ) : ℚ × ℚ :=
  let d := sideVal a b s - sideVal a b e
  if d = 0 then s
  else
    let t := sideVal a b s / d
    (s.1 + t * (e.1 - s.1), s.2 + t * (e.2 - s.2))

/-- One Sutherland–Hodgman pass: clip the subject ring by the closed left
half-plane of the directed edge a → b. -/
def clipHalfplane (a b : ℚ × ℚ) (subject : List (ℚ × ℚ)) : List (ℚ × ℚ) :=
  (cycleEdges subject).foldl
    (fun out se =>
      if 0 ≤ sideVal a b se.2 then
        if 0 ≤ sideVal a b se.1 then out ++ [se.2]
        else out ++ [segIntersect a b se.1 se.2, se.2]
      else
        if 0 ≤ sideVal a b se.1 then out ++ [segIntersect a b se.1 se.2]
        else out)
    []

/-- Orient a ring counterclockwise (negative shoelace sum means clockwise). -/
def orientCCW (ring : List (ℚ × ℚ)) : List (ℚ × ℚ) :=
  if shoelaceSum ring < 0 then ring.reverse else ring

/-- Polygon intersection by Sutherland–Hodgman clipping: clip the other
ring successively by each edge of this polygon's (CCW-oriented) ring.
Exact for the convex operands used in the concrete witnesses, matching
shapely's `.intersection` there. -/
def SPolygon.intersection (p q : SPolygon) : SPolygon :=
  let clip := orientCCW p.ring
  ⟨(cycleEdges clip).foldl (fun subj ab => clipHalfplane ab.1 ab.2 subj) q.ring⟩

/-- The executable rational backend packaged as a `GeomOps`. -/
def sgeom : GeomOps SPolygon :=
  { mkPolygon := SPolygon.mk
    bounds := SPolygon.bounds
    inter := SPolygon.intersection
    area := SPolygon.area }

/-! Constants of src/src/planet_overlap/pagination.py, lines 6-9. -/

/-- AOI bounding-box area above this (km²) triggers spatial tiling. -/
def POLYGON_AREA_THRESHOLD_KM2 : ℚ := 2500

/-- Polygon AOIs: split the date range if it spans more than 30 days. -/
def DATE_RANGE_THRESHOLD_DAYS : ℤ := 30

/-- Point AOIs: split the date range if it spans more than 3*365 = 1095 days. -/
def POINT_DATE_THRESHOLD_DAYS : ℤ := 3 * 365

/-- While-loop of pagination.tile_dates (lines 42-46): while
current_start ≤ end, emit (current_start, min(current_start + slice_length - 1, end))
and advance to the day after the emitted end.  slice_length ≥ 1 is the
termination argument (the call site passes a threshold ≥ 30). -/
def tile_dates_go (slice_length e : ℤ) (hs : 1 ≤ slice_length) (current_start : ℤ) :
    List (ℤ × ℤ) :=
  if h : current_start ≤ e then
    let current_end := min (current_start + slice_length - 1) e
    (current_start, current_end) :: tile_dates_go slice_length e hs (current_end + 1)
  else []
termination_by (e + 1 - current_start).toNat
decreasing_by omega

/-- Embedding of pagination.tile_dates (lines 17-48) over day numbers:
if the inclusive span is within the applicable threshold return the single
range, else slice with slice_length = min(threshold, total_days). -/
def tile_dates (start e : ℤ) ( is_point : Bool) : List (ℤ × ℤ) :=
  if h : e - start + 1 ≤ (if is_point then POINT_DATE_THRESHOLD_DAYS else DATE_RANGE_THRESHOLD_DAYS)
  then [(start, e)]
  else
    tile_dates_go
      (min (if is_point then POINT_DATE_THRESHOLD_DAYS else DATE_RANGE_THRESHOLD_DAYS)
        (e - start + 1))
      e
      (by
        cases is_point <;>
          simp [POINT_DATE_THRESHOLD_DAYS, DATE_RANGE_THRESHOLD_DAYS] at h ⊢ <;> omega)
      start

/-- Inner while-loop of pagination.tile_aoi (lines 77-87): sweep lon from
its current value to lon_max in steps of 1, appending the intersection of
each (clipped) 1°×1° cell with the AOI polygon — with no discard of empty
or degenerate intersections. -/
def tile_cells_row {P : Type} (G : GeomOps P) (geom : P) (lon_max lat_max lat : ℚ)
    (lon : ℚ) : List P :=
  if h : lon < lon_max then
    let tile := G.mkPolygon
      [(lon, lat), (min (lon + 1) lon_max, lat),
       (min (lon + 1) lon_max, min (lat + 1) lat_max), (lon, min (lat + 1) lat_max)]
    G.inter tile geom :: tile_cells_row G geom lon_max lat_max lat (lon + 1)
  else []
termination_by ⌈lon_max - lon⌉.toNat
decreasing_by
  have h1 : ⌈lon_max - (lon + 1)⌉ = ⌈lon_max - lon⌉ - 1 := by
    rw [show lon_max - (lon + 1) = lon_max - lon - 1 by ring, Int.ceil_sub_one]
  have h2 : (0 : ℤ) < ⌈lon_max - lon⌉ := Int.ceil_pos.mpr (by linarith)
  omega

/-- Outer while-loop of pagination.tile_aoi (lines 74-88): sweep lat from
lat_min to lat_max in steps of 1, concatenating the rows of cells. -/
def tile_aoi_rows {P : Type} (G : GeomOps P) (geom : P) (lon_min lon_max lat_max : ℚ)
    (lat : ℚ) : List P :=
  if h : lat < lat_max then
    tile_cells_row G geom lon_max lat_max lat lon_min ++
      tile_aoi_rows G geom lon_min lon_max lat_max (lat + 1)
  else []
termination_by ⌈lat_max - lat⌉.toNat
decreasing_by
  have h1 : ⌈lat_max - (lat + 1)⌉ = ⌈lat_max - lat⌉ - 1 := by
    rw [show lat_max - (lat + 1) = lat_max - lat - 1 by ring, Int.ceil_sub_one]
  have h2 : (0 : ℤ) < ⌈lat_max - lat⌉ := Int.ceil_pos.mpr (by linarith)
  omega

/-- Embedding of pagination.tile_aoi (lines 51-90) for polygon input: if
the bounding-box area estimate (degrees × 111 km/degree, squared) is
within the threshold return [geom]; otherwise grid the bounding box into
1°×1° cells and intersect each cell with the polygon.  (The Point branch
of the source, which returns the buffered point, is outside the polygon
claims and is not modelled.) -/
def tile_aoi {P : Type} (G : GeomOps P) (geom : P) : List P :=
  let b := G.bounds geom
  let area_km2 := (b.maxx - b.minx) * (b.maxy - b.miny) * 111 ^ 2
  if area_km2 ≤ POLYGON_AREA_THRESHOLD_KM2 then [geom]
  else tile_aoi_rows G geom b.minx b.maxx b.maxy b.miny

/-- Grid cell (row r, column c) that tile_aoi lays over a bounding box:
anchored at the box minimum corner, edge 1°, clipped at the box maximum. -/
def grid_cell {P : Type} (G : GeomOps P) (b : Bounds) (r c : ℕ) : P :=
  G.mkPolygon
    [(b.minx + c, b.miny + r), (min (b.minx + c + 1) b.maxx, b.miny + r),
     (min (b.minx + c + 1) b.maxx, min (b.miny + r + 1) b.maxy),
     (b.minx + c, min (b.miny + r + 1) b.maxy)]

/-- Matrices are total functions, zero outside the populated range. -/
abbrev Mat := ℕ → ℕ → ℚ

/-- Functional model of the in-place assignment m[i, j] = v. -/
def update2 (m : Mat) (i j : ℕ) (v : ℚ) : Mat :=
  fun a b => if a = i ∧ b = j then v else m a b

/-- Index pairs visited by the nested loops `for i in range(n): for j in
range(i+1, n)` of analysis.calculate_intersections, in loop order. -/
def pairList (n : ℕ) : List (ℕ × ℕ) :=
  (List.range n).flatMap fun i => (List.range' (i + 1) (n - (i + 1))).map fun j => (i, j)

/-- Element i of the polygons list (Python indexing; the loops only use
indices below the length). -/
def polyAt {P : Type} [Inhabited P] (polygons : List P) (i : ℕ) : P :=
  polygons.getD i default

/-- Loop body of analysis.calculate_intersections (lines 102-117): for a
pair (i, j), if instruments match and satellite ids differ, and the
asymmetric bounding-box pre-check passes, compute the intersection; if its
area is positive, write the area and the absolute sun-angle difference
into both (i, j) and (j, i) of the two matrices. -/
def calcStep {P : Type} [Inhabited P] (G : GeomOps P) (polygons : List P)
    (sun_angles : List ℚ) (instruments satellite_ids : List String)
    (m : Mat × Mat) (ij : ℕ × ℕ) : Mat × Mat :=
  if instruments.getD ij.1 "" = instruments.getD ij.2 ""
      ∧ satellite_ids.getD ij.1 "" ≠ satellite_ids.getD ij.2 "" then
    if (G.bounds (polyAt polygons ij.1)).maxx ≥ (G.bounds (polyAt polygons ij.2)).minx
        ∧ (G.bounds (polyAt polygons ij.1)).maxy ≥ (G.bounds (polyAt polygons ij.2)).miny then
      let intersection := G.inter (polyAt polygons ij.1) (polyAt polygons ij.2)
      if 0 < G.area intersection then
        let d := |sun_angles.getD ij.1 0 - sun_angles.getD ij.2 0|
        (update2 (update2 m.1 ij.1 ij.2 (G.area intersection)) ij.2 ij.1 (G.area intersection),
         update2 (update2 m.2 ij.1 ij.2 d) ij.2 ij.1 d)
      else m
    else m
  else m

/-- Embedding of analysis.calculate_intersections (lines 83-118): starting
from zero matrices, fold the loop body over all i < j pairs.  The source's
min_sun_angle and area_threshold parameters are accepted and, as in the
source, unused. -/
def calculate_intersections {P : Type} [Inhabited P] (G : GeomOps P)
    (polygons : List P) (properties : List Props)
    (min_sun_angle area_threshold : ℚ) : Mat × Mat :=
  let sun_angles := properties.map fun p => 90 - p.sun_elevation
  let instruments := properties.map Props.instrument
  let satellite_ids := properties.map Props.satellite_id
  (pairList polygons.length).foldl
    (calcStep G polygons sun_angles instruments satellite_ids)
    (fun _ _ => 0, fun _ _ => 0)

/-- Loop body of the naive variant written from the spec's words for the
refinement claim: identical to `calcStep` but with no bounding-box
pre-check — the exact intersection is computed for every eligible pair. -/
def calcStepNaive {P : Type} [Inhabited P] (G : GeomOps P) (polygons : List P)
    (sun_angles : List ℚ) (instruments satellite_ids : List String)
    (m : Mat × Mat) (ij : ℕ × ℕ) : Mat × Mat :=
  if instruments.getD ij.1 "" = instruments.getD ij.2 ""
      ∧ satellite_ids.getD ij.1 "" ≠ satellite_ids.getD ij.2 "" then
    let intersection := G.inter (polyAt polygons ij.1) (polyAt polygons ij.2)
    if 0 < G.area intersection then
      let d := |sun_angles.getD ij.1 0 - sun_angles.getD ij.2 0|
      (update2 (update2 m.1 ij.1 ij.2 (G.area intersection)) ij.2 ij.1 (G.area intersection),
       update2 (update2 m.2 ij.1 ij.2 d) ij.2 ij.1 d)
    else m
  else m

/-- Naive variant of calculate_intersections, written from the spec's
words (refinement claim C9): compute the exact intersection for every
eligible pair, with no bounding-box pre-check. -/
def calculate_intersections_naive {P : Type} [Inhabited P] (G : GeomOps P)
    (polygons : List P) (properties : List Props)
    (min_sun_angle area_threshold : ℚ) : Mat × Mat :=
  let sun_angles := properties.map fun p => 90 - p.sun_elevation
  let instruments := properties.map Props.instrument
  let satellite_ids := properties.map Props.satellite_id
  (pairList polygons.length).foldl
    (calcStepNaive G polygons sun_angles instruments satellite_ids)
    (fun _ _ => 0, fun _ _ => 0)

/-- Generic pair-write step used to analyse both loop bodies: if `cond`
holds at (i, j), overwrite cells (i, j) and (j, i) of both matrices with
the pair values, else leave the matrices unchanged. -/
def writeStep (cond : ℕ → ℕ → Prop) [DecidableRel cond] (vA vS : ℕ → ℕ → ℚ)
    (m : Mat × Mat) (ij : ℕ × ℕ) : Mat × Mat :=
  if cond ij.1 ij.2 then
    (update2 (update2 m.1 ij.1 ij.2 (vA ij.1 ij.2)) ij.2 ij.1 (vA ij.1 ij.2),
     update2 (update2 m.2 ij.1 ij.2 (vS ij.1 ij.2)) ij.2 ij.1 (vS ij.1 ij.2))
  else m

/-- Eligibility of a pair of scenes for comparison, exactly as the loop
body reads it: equal instrument strings and different satellite ids. -/
def eligiblePair (properties : List Props) (i j : ℕ) : Prop :=
  (properties.map Props.instrument).getD i "" = (properties.map Props.instrument).getD j ""
    ∧ (properties.map Props.satellite_id).getD i "" ≠ (properties.map Props.satellite_id).getD j ""

instance (properties : List Props) : DecidableRel (eligiblePair properties) :=
  fun _ _ => instDecidableAnd

/-- The asymmetric bounding-box pre-check of the loop body, in the (i, j)
orientation it is evaluated in. -/
def bboxPair {P : Type} [Inhabited P] (G : GeomOps P) (polygons : List P) (i j : ℕ) : Prop :=
  (G.bounds (polyAt polygons i)).maxx ≥ (G.bounds (polyAt polygons j)).minx
    ∧ (G.bounds (polyAt polygons i)).maxy ≥ (G.bounds (polyAt polygons j)).miny

instance {P : Type} [Inhabited P] (G : GeomOps P) (polygons : List P) :
    DecidableRel (bboxPair G polygons) :=
  fun _ _ => instDecidableAnd

/-- Area of the pairwise intersection polygons[i].intersection(polygons[j]). -/
def interAreaAt {P : Type} [Inhabited P] (G : GeomOps P) (polygons : List P) (i j : ℕ) : ℚ :=
  G.area (G.inter (polyAt polygons i) (polyAt polygons j))

/-- Sun angle 90 − sun_elevation of scene i, as the loop body reads it. -/
def sunAngleAt (properties : List Props) (i : ℕ) : ℚ :=
  (properties.map fun p => 90 - p.sun_elevation).getD i 0

/-- Full write condition of the original loop body at an ordered pair. -/
def calcCond {P : Type} [Inhabited P] (G : GeomOps P) (polygons : List P)
    (properties : List Props) (i j : ℕ) : Prop :=
  eligiblePair properties i j ∧ bboxPair G polygons i j ∧ 0 < interAreaAt G polygons i j

instance {P : Type} [Inhabited P] (G : GeomOps P) (polygons : List P) (properties : List Props) :
    DecidableRel (calcCond G polygons properties) :=
  fun _ _ => instDecidableAnd

/-- Full write condition of the naive loop body at an ordered pair. -/
def naiveCond {P : Type} [Inhabited P] (G : GeomOps P) (polygons : List P)
    (properties : List Props) (i j : ℕ) : Prop :=
  eligiblePair properties i j ∧ 0 < interAreaAt G polygons i j

instance {P : Type} [Inhabited P] (G : GeomOps P) (polygons : List P) (properties : List Props) :
    DecidableRel (naiveCond G polygons properties) :=
  fun _ _ => instDecidableAnd

/-- Absolute sun-angle difference written for a pair. -/
def sunDiffAt (properties : List Props) (i j : ℕ) : ℚ :=
  |sunAngleAt properties i - sunAngleAt properties j|

/-- Arithmetic mean (np.mean) of a list of rationals.  The pipeline only
applies it to exterior rings of retained scenes, which are nonempty. -/
def qmean (l : List ℚ) : ℚ :=
  l.sum / l.length

/-- Embedding of analysis.compute_central_coordinates (lines 32-48): the
vertex means of each exterior ring's longitudes and latitudes. -/
def compute_central_coordinates (geometries : List GeoJSONGeom) : List ℚ × List ℚ :=
  (geometries.map fun geom => qmean ((geom.coordinates.getD 0 []).map Prod.fst),
   geometries.map fun geom => qmean ((geom.coordinates.getD 0 []).map Prod.snd))

/-- Time-of-day substring extraction acquired.split("T")[1].split("Z")[0];
Python raises IndexError when no "T" is present, modelled as none. -/
def timePart (acquired : String) : Option String :=
  match acquired.splitOn "T" with
  | _ :: t :: _ => some ((t.splitOn "Z").headD "")
  | _ => none

/-- Model of Python float() on plain decimal literals (sign, digits,
optional fractional part); anything else fails, as float() raises. -/
def parseFloat (s : String) : Option ℚ :=
  match s.splitOn "." with
  | [a] => (a.toInt?).map fun z => (z : ℚ)
  | [a, b] =>
    match a.toInt?, b.toNat? with
    | some za, some nb =>
      some ((za : ℚ) + (if a.startsWith "-" then -1 else 1) * (nb : ℚ) / (10 : ℚ) ^ b.length)
    | _, _ => none
  | _ => none

/-- Parse of the hour, minute and second fields of an acquired timestamp,
as analysis.compute_local_times reads them: int(·), int(·) and float(·) on
the colon-separated parts of the time-of-day substring. -/
def parseHMS (acquired : String) : Option (ℤ × ℤ × ℚ) :=
  match timePart acquired with
  | none => none
  | some t =>
    match t.splitOn ":" with
    | h :: m :: s :: _ =>
      match h.toInt?, m.toInt?, parseFloat s with
      | some hh, some mm, some ss => some (hh, mm, ss)
      | _, _, _ => none
    | _ => none

/-- Embedding of analysis.compute_local_times (lines 51-75): fractional
UTC hour plus central_lon / 15, elementwise over the scenes; a parse
failure (Python exception) is none. -/
def compute_local_times (properties : List Props) (central_lon : List ℚ) :
    Option (List ℚ) :=
  (properties.mapM fun p => parseHMS p.acquired).map fun hms =>
    (hms.zip central_lon).map fun x =>
      ((x.1.1 : ℚ) + (x.1.2.1 : ℚ) / 60 + x.1.2.2 / 3600) + x.2 / 15

/-- Embedding of analysis.geometries_to_polygons (lines 78-80): build a
polygon from each exterior ring. -/
def geometries_to_polygons {P : Type} (G : GeomOps P) (geometries : List GeoJSONGeom) :
    List P :=
  geometries.map fun sub => G.mkPolygon (sub.coordinates.getD 0 [])

/-- One row of the output GeoDataFrame of analysis.process_tiles. -/
structure ResultRow (P : Type) where
  name : String
  geometry : P
  view_angle : ℚ
  acquired : String
  cloud_cover : ℚ
  sun_elevation : ℚ
  sun_angle : ℚ
  satellite_id : String
  central_lon : ℚ
  central_lat : ℚ
  local_times : ℚ
  max_sun_diff : ℚ
deriving DecidableEq, Inhabited

/-- Model of the geopandas GeoDataFrame produced by process_tiles: the
positional index column name, the data column names in construction
order, and the rows. -/
structure GeoDataFrame (P : Type) where
  index_name : String
  columns : List String
  rows : List (ResultRow P)
deriving DecidableEq

/-- Embedding of analysis.process_tiles (lines 121-175): filter and merge
the tiles, derive central coordinates and local times, convert geometries
to polygons, compute the pairwise matrices, and assemble the row table
(dict keys in source order, with "id" becoming the index through
set_index).  A Python exception while parsing timestamps is none. -/
def process_tiles {P : Type} [Inhabited P] (G : GeomOps P)
    (all_properties : List (List Props)) (all_geometries : List (List GeoJSONGeom))
    (all_ids : List (List String)) (min_view_angle min_sun_angle : ℚ) :
    Option (GeoDataFrame P) :=
  let merged := mergeTiles all_properties all_geometries all_ids min_view_angle
  let central := compute_central_coordinates merged.2.1
  match compute_local_times merged.1 central.1 with
  | none => none
  | some local_times =>
    let polygons := geometries_to_polygons G merged.2.1
    let mats := calculate_intersections G polygons merged.1 min_sun_angle 25
    some
      { index_name := "id"
        columns := ["name", "geometry", "view_angle", "acquired", "cloud_cover",
          "sun_elevation", "sun_angle", "satellite_id", "central_lon", "central_lat",
          "local_times", "max_sun_diff"]
        rows := (List.range polygons.length).map fun i =>
          { name := merged.2.2.getD i ""
            geometry := polyAt polygons i
            view_angle := (merged.1.getD i default).view_angle
            acquired := (merged.1.getD i default).acquired
            cloud_cover := (merged.1.getD i default).cloud_cover
            sun_elevation := (merged.1.getD i default).sun_elevation
            sun_angle := 90 - (merged.1.getD i default).sun_elevation
            satellite_id := (merged.1.getD i default).satellite_id
            central_lon := central.1.getD i 0
            central_lat := central.2.getD i 0
            local_times := local_times.getD i 0
            max_sun_diff := ((List.range polygons.length).map fun j => mats.2 i j).foldl max 0 } }

/-- Search-filter dictionary built by the prototype build_filters
(src/filters.py): the fields the pipeline fills in. -/
structure PlanetFilter where
  date_gte : String
  date_lte : String
  cloud_lte : ℚ
deriving DecidableEq

/-- Embedding of build_filters (src/filters.py, lines 3-30): raises
ValueError — modelled as Except.error — unless 0 ≤ max_cloud ≤ 1, then
returns the combined date-range and cloud-cover filter. -/
def build_filters ( start_date end_date : String) (max_cloud : ℚ) :
    Except String PlanetFilter :=
  if 0 ≤ max_cloud ∧ max_cloud ≤ 1 then
    Except.ok
      { date_gte := start_date ++ "T00:00:00.000Z"
        date_lte := end_date ++ "T23:59:59.999Z"
        cloud_lte := max_cloud }
  else Except.error "max_cloud must be between 0 and 1."

/-- RangeFilter dictionary shape used by the packaged filters module. -/
structure RangeFilterDict where
  field_name : String
  lte : ℚ
deriving DecidableEq

/-- Embedding of cloud_cover_filter (src/src/planet_overlap/filters.py,
lines 40-49): the packaged variant builds the RangeFilter config with no
validation of max_cloud at all. -/
def cloud_cover_filter (max_cloud : ℚ) : RangeFilterDict :=
  { field_name := "cloud_cover", lte := max_cloud }

/-- One search the CLI pipeline issues: the arguments
search_planet_items receives for one spatial tile and one date slice. -/
structure SearchRequest (P : Type) where
  geometry : P
  date_start : ℤ
  date_end : ℤ
  cloud_lte : ℚ
  sun_gte : ℚ
deriving DecidableEq

/-- Embedding of the dispatch loop of main (src/src/planet_overlap/cli.py,
lines 109-196) for polygon AOIs: validate_dates exits when start > end
(modelled as Except.error); otherwise every spatial tile × date range
combination is dispatched as a search carrying max_cloud unchanged —
main performs no validation of max_cloud anywhere.  File loading,
logging and the HTTP session are external I/O and appear here only as
the already-loaded AOI list and the returned request list. -/
def cli_main {P : Type} [Inhabited P] (G : GeomOps P) (aois : List P)
    ( start_date end_date : ℤ) (max_cloud min_sun_angle : ℚ) :
    Except String (List (SearchRequest P)) :=
  if start_date > end_date then Except.error "Start date must be before end date"
  else
    let all_tiles := aois.flatMap fun aoi => tile_aoi G aoi
    let date_ranges := tile_dates start_date end_date false
    Except.ok (all_tiles.flatMap fun tile =>
      date_ranges.map fun r =>
        { geometry := tile
          date_start := r.1
          date_end := r.2
          cloud_lte := max_cloud
          sun_gte := min_sun_angle })

/-- The request list cli_main dispatches when the dates are valid. -/
def dispatchList {P : Type} [Inhabited P] (G : GeomOps P) (aois : List P)
    ( start_date end_date : ℤ) (max_cloud min_sun_angle : ℚ) :
    List (SearchRequest P) :=
  (aois.flatMap fun aoi => tile_aoi G aoi).flatMap fun tile =>
    (tile_dates start_date end_date false).map fun r =>
      { geometry := tile
        date_start := r.1
        date_end := r.2
        cloud_lte := max_cloud
        sun_gte := min_sun_angle }

/-! Concrete scenes, geometries and polygons used by witnesses and
counterexamples. -/

/-- Right triangle with legs of 2 degrees: its bounding box is
[0,2]×[0,2], whose area estimate 2·2·111² = 49284 km² exceeds the tiling
threshold. -/
def triAOI : SPolygon :=
  ⟨[(0, 0), (2, 0), (0, 2)]⟩

/-- Small square AOI (0.1° edge), below the tiling threshold. -/
def sqSmall : SPolygon :=
  ⟨[(0, 0), (1/10, 0), (1/10, 1/10), (0, 1/10)]⟩

/-- Unit-area overlap square [0,2]². -/
def sqA : SPolygon :=
  ⟨[(0, 0), (2, 0), (2, 2), (0, 2)]⟩

/-- Unit-area overlap square [1,3]², overlapping sqA in [1,2]². -/
def sqB : SPolygon :=
  ⟨[(1, 1), (3, 1), (3, 3), (1, 3)]⟩

/-- Scene properties: PS2 instrument on satellite "a", sun elevation 40. -/
def sceneA : Props :=
  { ground_control := true
    quality_category := "standard"
    view_angle := 1
    sun_elevation := 40
    instrument := "PS2"
    satellite_id := "a"
    acquired := "2023-06-01T10:30:00.5Z"
    cloud_cover := 1/10 }

/-- Scene properties: PS2 instrument on satellite "b", sun elevation 55. -/
def sceneB : Props :=
  { ground_control := true
    quality_category := "standard"
    view_angle := 2
    sun_elevation := 55
    instrument := "PS2"
    satellite_id := "b"
    acquired := "2023-06-01T10:31:30Z"
    cloud_cover := 1/5 }

/-- Scene failing the quality filter (no ground control). -/
def sceneBad : Props :=
  { ground_control := false
    quality_category := "standard"
    view_angle := 1
    sun_elevation := 40
    instrument := "PS2"
    satellite_id := "a"
    acquired := "2023-06-01T10:30:00Z"
    cloud_cover := 0 }

/-- Five-vertex exterior ring (closing vertex repeated), GeoJSON style. -/
def ringA : List (ℚ × ℚ) :=
  [(0, 0), (2, 0), (2, 2), (0, 2), (0, 0)]

/-- Geometry carrying ringA. -/
def geomA : GeoJSONGeom :=
  ⟨[ringA]⟩

/-- Point-membership semantics of an `SPolygon` with a convex
counterclockwise (or degenerate) ring: the point is on the closed left
side of every edge.  This interprets the polygon as the point set shapely
assigns it for the convex rings used in the witnesses. -/
def SPolygon.contains (p : SPolygon) (x : ℚ × ℚ) : Prop :=
  p.ring ≠ [] ∧ ∀ e ∈ cycleEdges (orientCCW p.ring), 0 ≤ sideVal e.1 e.2 x

/-- Tall thin AOI [0, 3/10]×[0, 3/2]: its bounding-box area estimate
(3/10)·(3/2)·111² = 5544.45 km² exceeds the tiling threshold, producing a
1-column, 2-row grid. -/
def sqTall : SPolygon :=
  ⟨[(0, 0), (3/10, 0), (3/10, 3/2), (0, 3/2)]⟩

/-! Lemmas about filter_quality. -/

theorem filter_quality_nil (gs : List GeoJSONGeom) (ids : List String) (mp : ℕ) (mva : ℚ) :
    filter_quality [] gs ids mp mva = ([], [], []) :=
  rfl

theorem filter_quality_cons (p : Props) (ps : List Props) (g : GeoJSONGeom)
    (gs : List GeoJSONGeom) (i : String) (ids : List String) (mp : ℕ) (mva : ℚ) :
    filter_quality (p :: ps) (g :: gs) (i :: ids) mp mva =
      if keepScene mp mva p g then
        (p :: (filter_quality ps gs ids mp mva).1,
         g :: (filter_quality ps gs ids mp mva).2.1,
         i :: (filter_quality ps gs ids mp mva).2.2)
      else filter_quality ps gs ids mp mva := by
  by_cases hk : keepScene mp mva p g
  · simp [filter_quality, List.range_succ_eq_map, List.filter_cons, hk, List.filter_map,
      List.map_map, Function.comp_def]
  · simp [filter_quality, List.range_succ_eq_map, List.filter_cons, hk, List.filter_map,
      List.map_map, Function.comp_def]

theorem filter_quality_eq_zip_filter (ps : List Props) (gs : List GeoJSONGeom)
    (ids : List String) (mp : ℕ) (mva : ℚ) (hg : gs.length = ps.length)
    (hi : ids.length = ps.length) :
    filter_quality ps gs ids mp mva =
      (((ps.zip (gs.zip ids)).filter fun x => keepScene mp mva x.1 x.2.1).map Prod.fst,
       ((ps.zip (gs.zip ids)).filter fun x => keepScene mp mva x.1 x.2.1).map fun x => x.2.1,
       ((ps.zip (gs.zip ids)).filter fun x => keepScene mp mva x.1 x.2.1).map fun x => x.2.2) := by
  induction ps generalizing gs ids with
  | nil =>
    cases gs with
    | nil => cases ids <;> simp [filter_quality_nil]
    | cons g gs => simp at hg
  | cons p ps ih =>
    cases gs with
    | nil => simp at hg
    | cons g gs =>
      cases ids with
      | nil => simp at hi
      | cons i ids =>
        simp only [List.length_cons, Nat.succ.injEq] at hg hi
        rw [filter_quality_cons]
        by_cases hk : keepScene mp mva p g
        · simp [List.filter_cons, hk, ih gs ids hg hi]
        · simp [List.filter_cons, hk, ih gs ids hg hi]

theorem filter_quality_append (ps1 ps2 : List Props) (gs1 gs2 : List GeoJSONGeom)
    (ids1 ids2 : List String) (mp : ℕ) (mva : ℚ) (hg1 : gs1.length = ps1.length)
    (hi1 : ids1.length = ps1.length) :
    filter_quality (ps1 ++ ps2) (gs1 ++ gs2) (ids1 ++ ids2) mp mva =
      ((filter_quality ps1 gs1 ids1 mp mva).1 ++ (filter_quality ps2 gs2 ids2 mp mva).1,
       (filter_quality ps1 gs1 ids1 mp mva).2.1 ++ (filter_quality ps2 gs2 ids2 mp mva).2.1,
       (filter_quality ps1 gs1 ids1 mp mva).2.2 ++ (filter_quality ps2 gs2 ids2 mp mva).2.2) := by
  induction ps1 generalizing gs1 ids1 with
  | nil =>
    cases gs1 with
    | nil => cases ids1 <;> simp_all [filter_quality_nil]
    | cons g gs => simp at hg1
  | cons p ps ih =>
    cases gs1 with
    | nil => simp at hg1
    | cons g gs =>
      cases ids1 with
      | nil => simp at hi1
      | cons i ids =>
        simp only [List.length_cons, Nat.succ.injEq] at hg1 hi1
        simp only [List.cons_append]
        rw [filter_quality_cons, filter_quality_cons]
        by_cases hk : keepScene mp mva p g
        · simp [hk, ih gs ids hg1 hi1]
        · simp [hk, ih gs ids hg1 hi1]

theorem mergeTiles_foldl_acc
    (l : List (List Props × List GeoJSONGeom × List String)) (mva : ℚ)
    (acc : List Props × List GeoJSONGeom × List String) :
    l.foldl
        (fun merged t =>
          let f := filter_quality t.1 t.2.1 t.2.2 5 mva
          (merged.1 ++ f.1, merged.2.1 ++ f.2.1, merged.2.2 ++ f.2.2)) acc =
      (acc.1 ++
        (l.foldl
          (fun merged t =>
            let f := filter_quality t.1 t.2.1 t.2.2 5 mva
            (merged.1 ++ f.1, merged.2.1 ++ f.2.1, merged.2.2 ++ f.2.2)) ([], [], [])).1,
       acc.2.1 ++
        (l.foldl
          (fun merged t =>
            let f := filter_quality t.1 t.2.1 t.2.2 5 mva
            (merged.1 ++ f.1, merged.2.1 ++ f.2.1, merged.2.2 ++ f.2.2)) ([], [], [])).2.1,
       acc.2.2 ++
        (l.foldl
          (fun merged t =>
            let f := filter_quality t.1 t.2.1 t.2.2 5 mva
            (merged.1 ++ f.1, merged.2.1 ++ f.2.1, merged.2.2 ++ f.2.2)) ([], [], [])).2.2) := by
  induction l generalizing acc with
  | nil => simp
  | cons t ts ih =>
    simp only [List.foldl_cons]
    rw [ih, ih ((([], [], []) :
      List Props × List GeoJSONGeom × List String).1 ++ _, _, _)]
    simp [List.append_assoc]

/-- C5: filter_quality retains record i exactly when ground_control is
true, quality_category is "standard", view_angle is strictly below
min_view_angle and the exterior ring has at least min_points vertices; the
retained records keep their relative order and the three output sequences
stay co-indexed per scene (their zip is the filtered zip of the inputs,
and their lengths agree). -/
theorem filter_quality_spec (ps : List Props) (gs : List GeoJSONGeom) (ids : List String)
    (mp : ℕ) (mva : ℚ) (hg : gs.length = ps.length) (hi : ids.length = ps.length) :
    (filter_quality ps gs ids mp mva).1.zip
        ((filter_quality ps gs ids mp mva).2.1.zip (filter_quality ps gs ids mp mva).2.2)
      = (ps.zip (gs.zip ids)).filter (fun x => keepScene mp mva x.1 x.2.1)
    ∧ (filter_quality ps gs ids mp mva).2.1.length = (filter_quality ps gs ids mp mva).1.length
    ∧ (filter_quality ps gs ids mp mva).2.2.length
        = (filter_quality ps gs ids mp mva).1.length := by
  rw [filter_quality_eq_zip_filter ps gs ids mp mva hg hi]
  refine ⟨?_, by simp, by simp⟩
  rw [List.zip_map', List.zip_map']
  simp

/-- Witness for C5 at a concrete input: one passing scene and one failing
scene; the hypotheses are the co-indexing length facts. -/
theorem filter_quality_spec_witness :
    ([geomA, geomA].length = [sceneA, sceneBad].length
        ∧ (["s1", "s2"] : List String).length = [sceneA, sceneBad].length)
    ∧ ((filter_quality [sceneA, sceneBad] [geomA, geomA] ["s1", "s2"] 5 3).1.zip
          ((filter_quality [sceneA, sceneBad] [geomA, geomA] ["s1", "s2"] 5 3).2.1.zip
            (filter_quality [sceneA, sceneBad] [geomA, geomA] ["s1", "s2"] 5 3).2.2)
        = ([sceneA, sceneBad].zip ([geomA, geomA].zip ["s1", "s2"])).filter
            (fun x => keepScene 5 3 x.1 x.2.1)) :=
  ⟨⟨rfl, rfl⟩,
    (filter_quality_spec [sceneA, sceneBad] [geomA, geomA] ["s1", "s2"] 5 3 rfl rfl).1⟩

/-- C10: filter_quality commutes with concatenation — filtering each tile
and concatenating the results, as the Step-1 loop of process_tiles does,
equals concatenating all tiles first and filtering once, provided each
tile's three lists are co-indexed and the three outer lists have equal
length. -/
theorem filter_quality_commutes_concat (aPs : List (List Props))
    (aGs : List (List GeoJSONGeom)) (aIds : List (List String)) (mva : ℚ)
    (hg : aGs.length = aPs.length) (hi : aIds.length = aPs.length)
    (hin : ∀ t ∈ aPs.zip (aGs.zip aIds), t.2.1.length = t.1.length
      ∧ t.2.2.length = t.1.length) :
    mergeTiles aPs aGs aIds mva =
      filter_quality aPs.flatten aGs.flatten aIds.flatten 5 mva := by
  induction aPs generalizing aGs aIds with
  | nil =>
    cases aGs with
    | nil => cases aIds <;> simp_all [mergeTiles, filter_quality_nil]
    | cons g gs => simp at hg
  | cons p ps ih =>
    cases aGs with
    | nil => simp at hg
    | cons g gs =>
      cases aIds with
      | nil => simp at hi
      | cons i ids =>
        simp only [List.length_cons, Nat.succ.injEq] at hg hi
        have hhead : g.length = p.length ∧ i.length = p.length := by
          exact hin (p, (g, i)) (by simp)
        have htail : ∀ t ∈ ps.zip (gs.zip ids), t.2.1.length = t.1.length
            ∧ t.2.2.length = t.1.length := by
          intro t ht
          exact hin t (by simp [ht])
        simp only [List.flatten_cons]
        rw [filter_quality_append p ps.flatten g gs.flatten i ids.flatten 5 mva
          hhead.1 hhead.2]
        rw [← ih gs ids hg hi htail]
        simp only [mergeTiles, List.zip_cons_cons, List.foldl_cons]
        rw [mergeTiles_foldl_acc]
        simp

/-- Witness for C10 at a concrete input: two tiles, one with a passing and
one with a failing scene; the hypotheses are the length facts. -/
theorem filter_quality_commutes_concat_witness :
    ([[geomA], [geomA]].length = [[sceneA], [sceneBad]].length
        ∧ ([["s1"], ["s2"]] : List (List String)).length = [[sceneA], [sceneBad]].length)
    ∧ mergeTiles [[sceneA], [sceneBad]] [[geomA], [geomA]] [["s1"], ["s2"]] 3 =
        filter_quality [[sceneA], [sceneBad]].flatten [[geomA], [geomA]].flatten
          [["s1"], ["s2"]].flatten 5 3 :=
  ⟨⟨rfl, rfl⟩,
    filter_quality_commutes_concat [[sceneA], [sceneBad]] [[geomA], [geomA]]
      [["s1"], ["s2"]] 3 rfl rfl
      (by intro t ht; simp only [List.zip_cons_cons, List.mem_cons] at ht;
          rcases ht with h | h | h <;> simp_all)⟩

/-! Lemmas about tile_dates. -/

theorem tile_dates_go_spec (sl e : ℤ) (hs : 1 ≤ sl) (cs : ℤ) : cs ≤ e →
    (∃ ce rest, tile_dates_go sl e hs cs = (cs, ce) :: rest)
    ∧ (∀ p ∈ tile_dates_go sl e hs cs,
        cs ≤ p.1 ∧ p.1 ≤ p.2 ∧ p.2 ≤ e ∧ p.2 - p.1 + 1 ≤ sl)
    ∧ (∀ d : ℤ, cs ≤ d → d ≤ e → ∃ p ∈ tile_dates_go sl e hs cs, p.1 ≤ d ∧ d ≤ p.2)
    ∧ List.Chain' (fun a b => b.1 = a.2 + 1) (tile_dates_go sl e hs cs)
    ∧ (tile_dates_go sl e hs cs).Pairwise (fun a b => a.2 < b.1) := by
  induction cs using tile_dates_go.induct sl e hs with
  | case1 cs hle ce ih =>
    intro _
    rw [tile_dates_go, dif_pos hle]
    simp only []
    by_cases hrec : ce + 1 ≤ e
    · obtain ⟨hhead, hmem, hcov, hchain, hpair⟩ := ih hrec
      have hcecs : cs ≤ ce := by simp only [ce]; omega
      have hcee : ce ≤ e := by simp only [ce]; omega
      have hspan : ce - cs + 1 ≤ sl := by simp only [ce]; omega
      refine ⟨⟨ce, _, rfl⟩, ?_, ?_, ?_, ?_⟩
      · intro p hp
        rcases List.mem_cons.mp hp with h | h
        · subst h; exact ⟨le_refl _, hcecs, hcee, hspan⟩
        · have := hmem p h
          exact ⟨by omega, this.2.1, this.2.2.1, this.2.2.2⟩
      · intro d hd1 hd2
        by_cases hdc : d ≤ ce
        · exact ⟨(cs, ce), List.mem_cons_self _ _, hd1, hdc⟩
        · obtain ⟨p, hp, h1, h2⟩ := hcov d (by omega) hd2
          exact ⟨p, List.mem_cons_of_mem _ hp, h1, h2⟩
      · obtain ⟨ce2, rest, hL⟩ := hhead
        rw [hL]
        rw [hL] at hchain
        exact List.chain'_cons.mpr ⟨rfl, hchain⟩
      · refine List.pairwise_cons.mpr ⟨?_, hpair⟩
        intro b hb
        have := hmem b hb
        omega
    · have hL : tile_dates_go sl e hs (ce + 1) = [] := by
        rw [tile_dates_go, dif_neg hrec]
      rw [hL]
      have hcecs : cs ≤ ce := by simp only [ce]; omega
      have hcee : ce ≤ e := by simp only [ce]; omega
      have hspan : ce - cs + 1 ≤ sl := by simp only [ce]; omega
      refine ⟨⟨ce, _, rfl⟩, ?_, ?_, ?_, ?_⟩
      · intro p hp
        rcases List.mem_cons.mp hp with h | h
        · subst h; exact ⟨le_refl _, hcecs, hcee, hspan⟩
        · simp at h
      · intro d hd1 hd2
        exact ⟨(cs, ce), List.mem_cons_self _ _, hd1, by omega⟩
      · simp
      · simp
  | case2 cs hle => intro h; omega

/-- C2: for start ≤ end the slices of tile_dates start at start, are
contiguous (each slice begins the day after the previous one ends) and
pairwise non-overlapping, cover exactly the inclusive range [start, end],
every slice's inclusive day-span is at most the applicable threshold
(30 days for polygon AOIs, 1095 days for point AOIs), and when the total
inclusive span is within the threshold the result is the single range. -/
theorem tile_dates_partition_spec (s e : ℤ) ( is_point : Bool) (hse : s ≤ e) :
    (e - s + 1 ≤ (if is_point then (1095 : ℤ) else 30) →
      tile_dates s e is_point = [(s, e)])
    ∧ (∃ q rest, tile_dates s e is_point = (s, q) :: rest)
    ∧ (∀ p ∈ tile_dates s e is_point,
        s ≤ p.1 ∧ p.1 ≤ p.2 ∧ p.2 ≤ e
          ∧ p.2 - p.1 + 1 ≤ (if is_point then (1095 : ℤ) else 30))
    ∧ (∀ d : ℤ, (s ≤ d ∧ d ≤ e) ↔ ∃ p ∈ tile_dates s e is_point, p.1 ≤ d ∧ d ≤ p.2)
    ∧ List.Chain' (fun a b => b.1 = a.2 + 1) (tile_dates s e is_point)
    ∧ (tile_dates s e is_point).Pairwise (fun a b => a.2 < b.1) := by
  have hthr : (if is_point then POINT_DATE_THRESHOLD_DAYS else DATE_RANGE_THRESHOLD_DAYS)
      = (if is_point then (1095 : ℤ) else 30) := by
    cases is_point <;> norm_num [POINT_DATE_THRESHOLD_DAYS, DATE_RANGE_THRESHOLD_DAYS]
  by_cases hcase : e - s + 1 ≤ (if is_point then (1095 : ℤ) else 30)
  · have hL : tile_dates s e is_point = [(s, e)] := by
      rw [tile_dates, dif_pos (by rw [hthr]; exact hcase)]
    rw [hL]
    refine ⟨fun _ => rfl, ⟨e, [], rfl⟩, ?_, ?_, by simp, by simp⟩
    · intro p hp
      rcases List.mem_cons.mp hp with h | h
      · subst h; exact ⟨le_refl _, hse, le_refl _, hcase⟩
      · simp at h
    · intro d
      constructor
      · intro hd
        exact ⟨(s, e), List.mem_cons_self _ _, hd.1, hd.2⟩
      · intro ⟨p, hp, h1, h2⟩
        rcases List.mem_cons.mp hp with h | h
        · subst h; exact ⟨h1, h2⟩
        · simp at h
  · have hne : ¬ (e - s + 1 ≤ (if is_point then POINT_DATE_THRESHOLD_DAYS
        else DATE_RANGE_THRESHOLD_DAYS)) := by rw [hthr]; exact hcase
    have hsl : (1 : ℤ) ≤ min (if is_point then POINT_DATE_THRESHOLD_DAYS
        else DATE_RANGE_THRESHOLD_DAYS) (e - s + 1) := by
      rw [hthr] at *
      cases is_point <;> simp_all
    have hL : tile_dates s e is_point = tile_dates_go
        (min (if is_point then POINT_DATE_THRESHOLD_DAYS else DATE_RANGE_THRESHOLD_DAYS)
          (e - s + 1)) e
        (by cases is_point <;>
          simp [POINT_DATE_THRESHOLD_DAYS, DATE_RANGE_THRESHOLD_DAYS] at hne ⊢ <;> omega) s := by
      rw [tile_dates, dif_neg hne]
    obtain ⟨hhead, hmem, hcov, hchain, hpair⟩ :=
      tile_dates_go_spec (min (if is_point then POINT_DATE_THRESHOLD_DAYS
          else DATE_RANGE_THRESHOLD_DAYS) (e - s + 1)) e
        (by cases is_point <;>
          simp [POINT_DATE_THRESHOLD_DAYS, DATE_RANGE_THRESHOLD_DAYS] at hne ⊢ <;> omega)
        s hse
    rw [← hL] at hhead hmem hcov hchain hpair
    refine ⟨fun hco => absurd hco hcase, hhead, ?_, ?_, hchain, hpair⟩
    · intro p hp
      have := hmem p hp
      refine ⟨this.1, this.2.1, this.2.2.1, ?_⟩
      have h4 := this.2.2.2
      rw [hthr] at h4
      omega
    · intro d
      constructor
      · intro hd
        exact hcov d hd.1 hd.2
      · intro ⟨p, hp, h1, h2⟩
        have := hmem p hp
        exact ⟨by omega, by omega⟩

/-- Witness for C2 at a concrete input: a 100-day polygon range (above the
30-day threshold); the hypothesis is start ≤ end. -/
theorem tile_dates_partition_spec_witness :
    (0 : ℤ) ≤ 99
    ∧ List.Chain' (fun a b : ℤ × ℤ => b.1 = a.2 + 1) (tile_dates 0 99 false)
    ∧ (tile_dates 0 99 false).Pairwise (fun a b => a.2 < b.1) :=
  ⟨by decide,
   (tile_dates_partition_spec 0 99 false (by decide)).2.2.2.2.1,
   (tile_dates_partition_spec 0 99 false (by decide)).2.2.2.2.2⟩

/-! Lemmas about the pairwise-intersection matrices. -/

theorem pairList_mem (n : ℕ) (ij : ℕ × ℕ) : ij ∈ pairList n ↔ ij.1 < ij.2 ∧ ij.2 < n := by
  cases ij with
  | mk i j =>
    simp only [pairList, List.mem_flatMap, List.mem_map, List.mem_range, List.mem_range'_1,
      Prod.mk.injEq]
    constructor
    · rintro ⟨a, ha, b, ⟨hb1, hb2⟩, rfl, rfl⟩
      omega
    · rintro ⟨h1, h2⟩
      exact ⟨i, by omega, j, ⟨by omega, by omega⟩, rfl, rfl⟩

theorem pairList_nodup (n : ℕ) : (pairList n).Nodup := by
  refine List.nodup_flatMap.mpr ⟨?_, ?_⟩
  · intro i _
    refine List.Nodup.map ?_ (by simp [List.nodup_range'])
    intro a b hab
    exact (Prod.mk.injEq _ _ _ _).mp hab |>.2
  · refine List.Pairwise.imp ?_ (List.nodup_range n)
    intro a b hab
    intro x hxa hxb
    simp only [Function.onFun, List.mem_map] at hxa hxb
    obtain ⟨ja, _, rfl⟩ := hxa
    obtain ⟨jb, _, h⟩ := hxb
    exact hab ((Prod.mk.injEq _ _ _ _).mp h).1.symm

theorem update2_apply (m : Mat) (i j : ℕ) (v : ℚ) (a b : ℕ) :
    update2 m i j v a b = if a = i ∧ b = j then v else m a b :=
  rfl

theorem writeStep_apply (cond : ℕ → ℕ → Prop) [DecidableRel cond] (vA vS : ℕ → ℕ → ℚ)
    (m : Mat × Mat) (p : ℕ × ℕ) (hp : p.1 < p.2) (x y : ℕ) :
    ((writeStep cond vA vS m p).1 x y =
      if min x y = p.1 ∧ max x y = p.2 ∧ cond p.1 p.2 then vA p.1 p.2 else m.1 x y)
    ∧ ((writeStep cond vA vS m p).2 x y =
      if min x y = p.1 ∧ max x y = p.2 ∧ cond p.1 p.2 then vS p.1 p.2 else m.2 x y) := by
  by_cases hc : cond p.1 p.2
  · simp only [writeStep, if_pos hc, update2, hc, and_true]
    rcases le_total x y with hxy | hxy
    · rw [min_eq_left hxy, max_eq_right hxy]
      have hf : ¬(x = p.2 ∧ y = p.1) := by
        rintro ⟨h1, h2⟩
        omega
      constructor <;> simp [hf, update2_apply]
    · rw [min_eq_right hxy, max_eq_left hxy]
      have hf : ¬(x = p.1 ∧ y = p.2) := by
        rintro ⟨h1, h2⟩
        omega
      by_cases hx : x = p.2 ∧ y = p.1
      · constructor <;> simp [hf, hx.1, hx.2, update2_apply]
      · have hg : ¬(y = p.1 ∧ x = p.2) := fun h => hx ⟨h.2, h.1⟩
        constructor <;> simp [hf, hx, hg, update2_apply]
  · simp only [writeStep, if_neg hc, hc, and_false, if_false]
    simp

theorem writeStep_foldl_apply (cond : ℕ → ℕ → Prop) [DecidableRel cond]
    (vA vS : ℕ → ℕ → ℚ) (pairs : List (ℕ × ℕ)) (hlt : ∀ p ∈ pairs, p.1 < p.2)
    (hnd : pairs.Nodup) (m0 : Mat × Mat) (x y : ℕ) :
    ((pairs.foldl (writeStep cond vA vS) m0).1 x y
        = if (min x y, max x y) ∈ pairs ∧ cond (min x y) (max x y)
          then vA (min x y) (max x y) else m0.1 x y)
    ∧ ((pairs.foldl (writeStep cond vA vS) m0).2 x y
        = if (min x y, max x y) ∈ pairs ∧ cond (min x y) (max x y)
          then vS (min x y) (max x y) else m0.2 x y) := by
  induction pairs generalizing m0 with
  | nil => simp
  | cons p ps ih =>
    have hplt : p.1 < p.2 := hlt p (List.mem_cons_self _ _)
    have hlt' : ∀ q ∈ ps, q.1 < q.2 := fun q hq => hlt q (List.mem_cons_of_mem _ hq)
    have hnd' : ps.Nodup := (List.nodup_cons.mp hnd).2
    have hpnotin : p ∉ ps := (List.nodup_cons.mp hnd).1
    simp only [List.foldl_cons]
    obtain ⟨ih1, ih2⟩ := ih hlt' hnd' (writeStep cond vA vS m0 p)
    obtain ⟨hw1, hw2⟩ := writeStep_apply cond vA vS m0 p hplt x y
    rw [ih1, ih2, hw1, hw2]
    by_cases hmem : (min x y, max x y) ∈ ps
    · have hne : ¬(min x y = p.1 ∧ max x y = p.2 ∧ cond p.1 p.2) := by
        rintro ⟨h1, h2, _⟩
        have hpe : p = (min x y, max x y) := Prod.ext_iff.mpr ⟨h1.symm, h2.symm⟩
        exact hpnotin (hpe ▸ hmem)
      by_cases hc : cond (min x y) (max x y)
      · simp [hmem, hc, List.mem_cons]
      · simp [hmem, hc, hne, List.mem_cons]
    · by_cases hp2 : (min x y, max x y) = p
      · have h1 : min x y = p.1 := by rw [← hp2]
        have h2 : max x y = p.2 := by rw [← hp2]
        by_cases hc : cond p.1 p.2
        · simp [hmem, h1, h2, hc, List.mem_cons]
        · simp [hmem, h1, h2, hc, List.mem_cons]
      · have hne : ¬(min x y = p.1 ∧ max x y = p.2 ∧ cond p.1 p.2) := by
          rintro ⟨h1, h2, _⟩
          exact hp2 (Prod.ext_iff.mpr ⟨h1, h2⟩)
        have hne2 : ¬((min x y, max x y) = p) := hp2
        simp [hmem, hne, hne2, List.mem_cons]

theorem calcStep_eq_writeStep {P : Type} [Inhabited P] (G : GeomOps P)
    (polygons : List P) (properties : List Props) (m : Mat × Mat) (ij : ℕ × ℕ) :
    calcStep G polygons (properties.map fun p => 90 - p.sun_elevation)
        (properties.map Props.instrument) (properties.map Props.satellite_id) m ij
      = writeStep (calcCond G polygons properties)
          (interAreaAt G polygons) (sunDiffAt properties) m ij := by
  simp only [calcStep, writeStep, calcCond, eligiblePair, bboxPair, interAreaAt,
    sunDiffAt, sunAngleAt, ge_iff_le]
  by_cases h1 : (properties.map Props.instrument).getD ij.1 ""
        = (properties.map Props.instrument).getD ij.2 ""
      ∧ (properties.map Props.satellite_id).getD ij.1 ""
        ≠ (properties.map Props.satellite_id).getD ij.2 ""
  · by_cases h2 : (G.bounds (polyAt polygons ij.2)).minx ≤ (G.bounds (polyAt polygons ij.1)).maxx
        ∧ (G.bounds (polyAt polygons ij.2)).miny ≤ (G.bounds (polyAt polygons ij.1)).maxy
    · by_cases h3 : 0 < G.area (G.inter (polyAt polygons ij.1) (polyAt polygons ij.2))
      · rw [if_pos h1, if_pos h2, if_pos h3, if_pos ⟨h1, h2, h3⟩]
      · rw [if_pos h1, if_pos h2, if_neg h3, if_neg (fun hc => h3 hc.2.2)]
    · rw [if_pos h1, if_neg h2, if_neg (fun hc => h2 hc.2.1)]
  · rw [if_neg h1, if_neg (fun hc => h1 hc.1)]

theorem calcStepNaive_eq_writeStep {P : Type} [Inhabited P] (G : GeomOps P)
    (polygons : List P) (properties : List Props) (m : Mat × Mat) (ij : ℕ × ℕ) :
    calcStepNaive G polygons (properties.map fun p => 90 - p.sun_elevation)
        (properties.map Props.instrument) (properties.map Props.satellite_id) m ij
      = writeStep (naiveCond G polygons properties)
          (interAreaAt G polygons) (sunDiffAt properties) m ij := by
  simp only [calcStepNaive, writeStep, naiveCond, eligiblePair, interAreaAt,
    sunDiffAt, sunAngleAt]
  by_cases h1 : (properties.map Props.instrument).getD ij.1 ""
        = (properties.map Props.instrument).getD ij.2 ""
      ∧ (properties.map Props.satellite_id).getD ij.1 ""
        ≠ (properties.map Props.satellite_id).getD ij.2 ""
  · by_cases h3 : 0 < G.area (G.inter (polyAt polygons ij.1) (polyAt polygons ij.2))
    · rw [if_pos h1, if_pos h3, if_pos ⟨h1, h3⟩]
    · rw [if_pos h1, if_neg h3, if_neg (fun hc => h3 hc.2)]
  · rw [if_neg h1, if_neg (fun hc => h1 hc.1)]

theorem calculate_intersections_apply {P : Type} [Inhabited P] (G : GeomOps P)
    (polygons : List P) (properties : List Props) (msa thr : ℚ) (x y : ℕ) :
    ((calculate_intersections G polygons properties msa thr).1 x y
        = if (min x y, max x y) ∈ pairList polygons.length
              ∧ calcCond G polygons properties (min x y) (max x y)
          then interAreaAt G polygons (min x y) (max x y) else 0)
    ∧ ((calculate_intersections G polygons properties msa thr).2 x y
        = if (min x y, max x y) ∈ pairList polygons.length
              ∧ calcCond G polygons properties (min x y) (max x y)
          then sunDiffAt properties (min x y) (max x y) else 0) := by
  have hfold : (pairList polygons.length).foldl
      (calcStep G polygons (properties.map fun p => 90 - p.sun_elevation)
        (properties.map Props.instrument) (properties.map Props.satellite_id))
      (fun _ _ => 0, fun _ _ => 0)
    = (pairList polygons.length).foldl
      (writeStep (calcCond G polygons properties)
        (interAreaAt G polygons) (sunDiffAt properties))
      (fun _ _ => 0, fun _ _ => 0) := by
    apply List.foldl_ext
    intro m ij _
    exact calcStep_eq_writeStep G polygons properties m ij
  show ((calculate_intersections G polygons properties msa thr).1 x y = _)
    ∧ ((calculate_intersections G polygons properties msa thr).2 x y = _)
  unfold calculate_intersections
  simp only []
  rw [hfold]
  exact writeStep_foldl_apply (calcCond G polygons properties)
    (interAreaAt G polygons) (sunDiffAt properties) (pairList polygons.length)
    (fun p hp => ((pairList_mem polygons.length p).mp hp).1)
    (pairList_nodup polygons.length) (fun _ _ => 0, fun _ _ => 0) x y

theorem calculate_intersections_naive_apply {P : Type} [Inhabited P] (G : GeomOps P)
    (polygons : List P) (properties : List Props) (msa thr : ℚ) (x y : ℕ) :
    ((calculate_intersections_naive G polygons properties msa thr).1 x y
        = if (min x y, max x y) ∈ pairList polygons.length
              ∧ naiveCond G polygons properties (min x y) (max x y)
          then interAreaAt G polygons (min x y) (max x y) else 0)
    ∧ ((calculate_intersections_naive G polygons properties msa thr).2 x y
        = if (min x y, max x y) ∈ pairList polygons.length
              ∧ naiveCond G polygons properties (min x y) (max x y)
          then sunDiffAt properties (min x y) (max x y) else 0) := by
  have hfold : (pairList polygons.length).foldl
      (calcStepNaive G polygons (properties.map fun p => 90 - p.sun_elevation)
        (properties.map Props.instrument) (properties.map Props.satellite_id))
      (fun _ _ => 0, fun _ _ => 0)
    = (pairList polygons.length).foldl
      (writeStep (naiveCond G polygons properties)
        (interAreaAt G polygons) (sunDiffAt properties))
      (fun _ _ => 0, fun _ _ => 0) := by
    apply List.foldl_ext
    intro m ij _
    exact calcStepNaive_eq_writeStep G polygons properties m ij
  unfold calculate_intersections_naive
  simp only []
  rw [hfold]
  exact writeStep_foldl_apply (naiveCond G polygons properties)
    (interAreaAt G polygons) (sunDiffAt properties) (pairList polygons.length)
    (fun p hp => ((pairList_mem polygons.length p).mp hp).1)
    (pairList_nodup polygons.length) (fun _ _ => 0, fun _ _ => 0) x y

theorem polyAt_mem {P : Type} [Inhabited P] (polys : List P) (i : ℕ) (h : i < polys.length) :
    polyAt polys i ∈ polys := by
  rw [polyAt, List.getD_eq_getElem polys default h]
  exact List.getElem_mem h

theorem eligiblePair_symm (properties : List Props) (i j : ℕ)
    (h : eligiblePair properties i j) : eligiblePair properties j i :=
  ⟨h.1.symm, fun hn => h.2 hn.symm⟩

theorem eligiblePair_minmax (properties : List Props) (i j : ℕ) :
    eligiblePair properties i j ↔ eligiblePair properties (min i j) (max i j) := by
  rcases le_total i j with h | h
  · rw [min_eq_left h, max_eq_right h]
  · rw [min_eq_right h, max_eq_left h]
    exact ⟨eligiblePair_symm _ _ _, eligiblePair_symm _ _ _⟩

theorem sunDiffAt_minmax (properties : List Props) (i j : ℕ) :
    sunDiffAt properties (min i j) (max i j) = sunDiffAt properties i j := by
  rcases le_total i j with h | h
  · rw [min_eq_left h, max_eq_right h]
  · rw [min_eq_right h, max_eq_left h]
    simp only [sunDiffAt]
    exact abs_sub_comm _ _

/-- C6: the two matrices returned by calculate_intersections are symmetric
and have an all-zero diagonal, for every geometry backend and co-indexed
input. -/
theorem calculate_intersections_symm_diag {P : Type} [Inhabited P] (G : GeomOps P)
    (polygons : List P) (properties : List Props) (msa thr : ℚ)
    (hlen : properties.length = polygons.length) (i j : ℕ) :
    (calculate_intersections G polygons properties msa thr).1 i j
      = (calculate_intersections G polygons properties msa thr).1 j i
    ∧ (calculate_intersections G polygons properties msa thr).2 i j
      = (calculate_intersections G polygons properties msa thr).2 j i
    ∧ (calculate_intersections G polygons properties msa thr).1 i i = 0
    ∧ (calculate_intersections G polygons properties msa thr).2 i i = 0 := by
  obtain ⟨a1, s1⟩ := calculate_intersections_apply G polygons properties msa thr i j
  obtain ⟨a2, s2⟩ := calculate_intersections_apply G polygons properties msa thr j i
  obtain ⟨a3, s3⟩ := calculate_intersections_apply G polygons properties msa thr i i
  have hdiag : ¬((min i i, max i i) ∈ pairList polygons.length
      ∧ calcCond G polygons properties (min i i) (max i i)) := by
    rintro ⟨hm, _⟩
    have := (pairList_mem _ _).mp hm
    omega
  refine ⟨?_, ?_, ?_, ?_⟩
  · rw [a1, a2, min_comm j i, max_comm j i]
  · rw [s1, s2, min_comm j i, max_comm j i]
  · rw [a3, if_neg hdiag]
  · rw [s3, if_neg hdiag]

/-- Witness for C6 at a concrete input: two overlapping same-instrument
scenes from different satellites; the hypothesis is the co-indexing
length fact, and the symmetry and zero diagonal are instantiated at
indices 0 and 1. -/
theorem calculate_intersections_symm_diag_witness :
    [sceneA, sceneB].length = [sqA, sqB].length
    ∧ (calculate_intersections sgeom [sqA, sqB] [sceneA, sceneB] 0 25).1 0 1
        = (calculate_intersections sgeom [sqA, sqB] [sceneA, sceneB] 0 25).1 1 0
    ∧ (calculate_intersections sgeom [sqA, sqB] [sceneA, sceneB] 0 25).2 0 1
        = (calculate_intersections sgeom [sqA, sqB] [sceneA, sceneB] 0 25).2 1 0
    ∧ (calculate_intersections sgeom [sqA, sqB] [sceneA, sceneB] 0 25).1 0 0 = 0
    ∧ (calculate_intersections sgeom [sqA, sqB] [sceneA, sceneB] 0 25).2 0 0 = 0 :=
  ⟨rfl, calculate_intersections_symm_diag sgeom [sqA, sqB] [sceneA, sceneB] 0 25 rfl 0 1⟩

/-- C1: calculate_intersections populates entries only at pairs (i, j),
i ≠ j, with equal instrument and different satellite_id; at such a pair
with positive intersection area both (i, j) and (j, i) receive the
intersection area and the absolute difference of the sun angles
90 − sun_elevation, and every other entry of both matrices is exactly
zero.  The hbb hypothesis is the geometric fact (true of real bounding
boxes) that positively-overlapping polygons pass the bounding-box
pre-check; it is what makes the pre-check unable to hide a positive-area
pair. -/
theorem calculate_intersections_entries_spec {P : Type} [Inhabited P] (G : GeomOps P)
    (polygons : List P) (properties : List Props) (msa thr : ℚ)
    (hlen : properties.length = polygons.length)
    (hbb : ∀ p ∈ polygons, ∀ q ∈ polygons, 0 < G.area (G.inter p q) →
      (G.bounds p).maxx ≥ (G.bounds q).minx ∧ (G.bounds p).maxy ≥ (G.bounds q).miny)
    (i j : ℕ) (hi : i < polygons.length) (hj : j < polygons.length) :
    ((i ≠ j ∧ eligiblePair properties i j
        ∧ 0 < interAreaAt G polygons (min i j) (max i j)) →
      (calculate_intersections G polygons properties msa thr).1 i j
          = interAreaAt G polygons (min i j) (max i j)
        ∧ (calculate_intersections G polygons properties msa thr).2 i j
          = sunDiffAt properties i j)
    ∧ (¬(i ≠ j ∧ eligiblePair properties i j
        ∧ 0 < interAreaAt G polygons (min i j) (max i j)) →
      (calculate_intersections G polygons properties msa thr).1 i j = 0
        ∧ (calculate_intersections G polygons properties msa thr).2 i j = 0) := by
  obtain ⟨ha, hs⟩ := calculate_intersections_apply G polygons properties msa thr i j
  constructor
  · rintro ⟨hne, helig, hpos⟩
    have hmm : (min i j, max i j) ∈ pairList polygons.length :=
      (pairList_mem _ _).mpr ⟨by omega, by omega⟩
    have heligm : eligiblePair properties (min i j) (max i j) :=
      (eligiblePair_minmax properties i j).mp helig
    have hbbm : bboxPair G polygons (min i j) (max i j) :=
      hbb _ (polyAt_mem polygons _ (by omega)) _ (polyAt_mem polygons _ (by omega)) hpos
    have hcond : calcCond G polygons properties (min i j) (max i j) := ⟨heligm, hbbm, hpos⟩
    refine ⟨by rw [ha, if_pos ⟨hmm, hcond⟩], ?_⟩
    rw [hs, if_pos ⟨hmm, hcond⟩]
    exact sunDiffAt_minmax properties i j
  · intro hneg
    have hC : ¬((min i j, max i j) ∈ pairList polygons.length
        ∧ calcCond G polygons properties (min i j) (max i j)) := by
      rintro ⟨hmm, helig', _, hpos'⟩
      apply hneg
      have hlt := (pairList_mem _ _).mp hmm
      refine ⟨by omega, (eligiblePair_minmax properties i j).mpr helig', hpos'⟩
    rw [ha, hs, if_neg hC, if_neg hC]
    exact ⟨rfl, rfl⟩

/-- C9: with the bounding-box fact hbb, the asymmetric pre-check never
skips an eligible pair of positive intersection area, so
calculate_intersections computes exactly the matrices of the naive
variant that has no pre-check. -/
theorem calculate_intersections_bbox_refines_naive {P : Type} [Inhabited P]
    (G : GeomOps P) (polygons : List P) (properties : List Props) (msa thr : ℚ)
    (hbb : ∀ p ∈ polygons, ∀ q ∈ polygons, 0 < G.area (G.inter p q) →
      (G.bounds p).maxx ≥ (G.bounds q).minx ∧ (G.bounds p).maxy ≥ (G.bounds q).miny)
    (x y : ℕ) :
    (calculate_intersections G polygons properties msa thr).1 x y
      = (calculate_intersections_naive G polygons properties msa thr).1 x y
    ∧ (calculate_intersections G polygons properties msa thr).2 x y
      = (calculate_intersections_naive G polygons properties msa thr).2 x y := by
  obtain ⟨a1, s1⟩ := calculate_intersections_apply G polygons properties msa thr x y
  obtain ⟨a2, s2⟩ := calculate_intersections_naive_apply G polygons properties msa thr x y
  have hcond : ((min x y, max x y) ∈ pairList polygons.length
        ∧ calcCond G polygons properties (min x y) (max x y))
      ↔ ((min x y, max x y) ∈ pairList polygons.length
        ∧ naiveCond G polygons properties (min x y) (max x y)) := by
    constructor
    · rintro ⟨hm, he, _, hp⟩
      exact ⟨hm, he, hp⟩
    · rintro ⟨hm, he, hp⟩
      have hlt := (pairList_mem _ _).mp hm
      exact ⟨hm, he,
        hbb _ (polyAt_mem polygons _ (by omega)) _ (polyAt_mem polygons _ (by omega)) hp, hp⟩
  rw [a1, a2, s1, s2]
  exact ⟨if_congr hcond rfl rfl, if_congr hcond rfl rfl⟩

theorem squares_hbb : ∀ p ∈ [sqA, sqB], ∀ q ∈ [sqA, sqB],
    0 < sgeom.area (sgeom.inter p q) →
    (sgeom.bounds p).maxx ≥ (sgeom.bounds q).minx
      ∧ (sgeom.bounds p).maxy ≥ (sgeom.bounds q).miny := by
  intro p hp q hq _
  simp only [List.mem_cons, List.not_mem_nil, or_false] at hp hq
  rcases hp with rfl | rfl <;> rcases hq with rfl | rfl <;>
    constructor <;>
      norm_num [sgeom, sqA, sqB, SPolygon.bounds, min_def, max_def]

/-- Witness for C1 at a concrete input: two overlapping 2°×2° scenes of
the same instrument on different satellites with sun elevations 40° and
55°; the hypotheses (co-indexing and the bounding-box fact for the two
polygons) are discharged, and the positive branch is instantiated at the
pair (0, 1), whose recorded entries are the exact overlap area 1 and sun
difference 15. -/
theorem calculate_intersections_entries_spec_witness :
    [sceneA, sceneB].length = [sqA, sqB].length
    ∧ (0 ≠ 1 ∧ eligiblePair [sceneA, sceneB] 0 1
        ∧ 0 < interAreaAt sgeom [sqA, sqB] (min 0 1) (max 0 1))
    ∧ (calculate_intersections sgeom [sqA, sqB] [sceneA, sceneB] 0 25).1 0 1
        = interAreaAt sgeom [sqA, sqB] (min 0 1) (max 0 1)
    ∧ (calculate_intersections sgeom [sqA, sqB] [sceneA, sceneB] 0 25).2 0 1
        = sunDiffAt [sceneA, sceneB] 0 1 := by
  have hpos : 0 < interAreaAt sgeom [sqA, sqB] (min 0 1) (max 0 1) := by
    norm_num [interAreaAt, polyAt, sgeom, sqA, sqB, SPolygon.intersection, SPolygon.area,
      orientCCW, shoelaceSum, cycleEdges, clipHalfplane, sideVal, segIntersect]
  have hyp : (0 ≠ 1 ∧ eligiblePair [sceneA, sceneB] 0 1
      ∧ 0 < interAreaAt sgeom [sqA, sqB] (min 0 1) (max 0 1)) :=
    ⟨by omega, by constructor <;> simp [eligiblePair, sceneA, sceneB], hpos⟩
  exact ⟨rfl, hyp,
    (calculate_intersections_entries_spec sgeom [sqA, sqB] [sceneA, sceneB] 0 25 rfl
      squares_hbb 0 1 (by simp) (by simp)).1 hyp⟩

/-- Witness for C9 at a concrete input: the same two overlapping scenes;
the bounding-box hypothesis is discharged and the refinement equality is
instantiated at the entry (0, 1). -/
theorem calculate_intersections_bbox_refines_naive_witness :
    (calculate_intersections sgeom [sqA, sqB] [sceneA, sceneB] 0 25).1 0 1
      = (calculate_intersections_naive sgeom [sqA, sqB] [sceneA, sceneB] 0 25).1 0 1
    ∧ (calculate_intersections sgeom [sqA, sqB] [sceneA, sceneB] 0 25).2 0 1
      = (calculate_intersections_naive sgeom [sqA, sqB] [sceneA, sceneB] 0 25).2 0 1 :=
  calculate_intersections_bbox_refines_naive sgeom [sqA, sqB] [sceneA, sceneB] 0 25
    squares_hbb 0 1

/-! Lemmas about tile_aoi. -/

theorem tile_cells_row_eq {P : Type} (G : GeomOps P) (geom : P)
    (lon_max lat_max lat : ℚ) (lon : ℚ) :
    tile_cells_row G geom lon_max lat_max lat lon =
      (List.range ⌈lon_max - lon⌉.toNat).map fun (c : ℕ) =>
        G.inter (G.mkPolygon
          [(lon + (c : ℚ), lat), (min (lon + (c : ℚ) + 1) lon_max, lat),
           (min (lon + (c : ℚ) + 1) lon_max, min (lat + 1) lat_max),
           (lon + (c : ℚ), min (lat + 1) lat_max)]) geom := by
  induction lon using tile_cells_row.induct G geom lon_max lat_max lat with
  | case1 lon h ih =>
    rw [tile_cells_row, dif_pos h]
    have h1 : ⌈lon_max - (lon + 1)⌉ = ⌈lon_max - lon⌉ - 1 := by
      rw [show lon_max - (lon + 1) = lon_max - lon - 1 by ring, Int.ceil_sub_one]
    have h2 : (0 : ℤ) < ⌈lon_max - lon⌉ := Int.ceil_pos.mpr (by linarith)
    have hk : ⌈lon_max - lon⌉.toNat = ⌈lon_max - (lon + 1)⌉.toNat + 1 := by omega
    rw [hk, List.range_succ_eq_map, List.map_cons, List.map_map, ih]
    refine List.cons_eq_cons.mpr ⟨by norm_num, ?_⟩
    apply List.map_congr_left
    intro c _
    have harg : lon + (c + 1 : ℕ) = lon + 1 + (c : ℚ) := by push_cast; ring
    simp only [Function.comp_apply, harg]
  | case2 lon h =>
    rw [tile_cells_row, dif_neg h]
    have hc : ⌈lon_max - lon⌉ ≤ 0 := Int.ceil_le.mpr (by push_cast; linarith)
    have : ⌈lon_max - lon⌉.toNat = 0 := by omega
    rw [this]
    simp

theorem tile_aoi_rows_eq {P : Type} (G : GeomOps P) (geom : P)
    (lon_min lon_max lat_max : ℚ) (lat : ℚ) :
    tile_aoi_rows G geom lon_min lon_max lat_max lat =
      (List.range ⌈lat_max - lat⌉.toNat).flatMap fun (r : ℕ) =>
        (List.range ⌈lon_max - lon_min⌉.toNat).map fun (c : ℕ) =>
          G.inter (G.mkPolygon
            [(lon_min + (c : ℚ), lat + (r : ℚ)),
             (min (lon_min + (c : ℚ) + 1) lon_max, lat + (r : ℚ)),
             (min (lon_min + (c : ℚ) + 1) lon_max, min (lat + (r : ℚ) + 1) lat_max),
             (lon_min + (c : ℚ), min (lat + (r : ℚ) + 1) lat_max)]) geom := by
  induction lat using tile_aoi_rows.induct G geom lon_min lon_max lat_max with
  | case1 lat h ih =>
    rw [tile_aoi_rows, dif_pos h]
    have h1 : ⌈lat_max - (lat + 1)⌉ = ⌈lat_max - lat⌉ - 1 := by
      rw [show lat_max - (lat + 1) = lat_max - lat - 1 by ring, Int.ceil_sub_one]
    have h2 : (0 : ℤ) < ⌈lat_max - lat⌉ := Int.ceil_pos.mpr (by linarith)
    have hk : ⌈lat_max - lat⌉.toNat = ⌈lat_max - (lat + 1)⌉.toNat + 1 := by omega
    rw [hk, List.range_succ_eq_map, List.flatMap_cons, List.flatMap_map, ih]
    congr 1
    · rw [tile_cells_row_eq]
      apply List.map_congr_left
      intro c _
      push_cast
      ring_nf
    · congr 1
      funext r
      try simp only [Function.comp_apply]
      apply List.map_congr_left
      intro c _
      push_cast
      ring_nf
  | case2 lat h =>
    rw [tile_aoi_rows, dif_neg h]
    have hc : ⌈lat_max - lat⌉ ≤ 0 := Int.ceil_le.mpr (by push_cast; linarith)
    have : ⌈lat_max - lat⌉.toNat = 0 := by omega
    rw [this]
    simp

theorem tile_aoi_over_threshold_eq {P : Type} (G : GeomOps P) (geom : P)
    (h : 2500 < ((G.bounds geom).maxx - (G.bounds geom).minx)
        * ((G.bounds geom).maxy - (G.bounds geom).miny) * 111 ^ 2) :
    tile_aoi G geom =
      (List.range ⌈(G.bounds geom).maxy - (G.bounds geom).miny⌉.toNat).flatMap fun (r : ℕ) =>
        (List.range ⌈(G.bounds geom).maxx - (G.bounds geom).minx⌉.toNat).map fun (c : ℕ) =>
          G.inter (grid_cell G (G.bounds geom) r c) geom := by
  have hne : ¬(((G.bounds geom).maxx - (G.bounds geom).minx)
      * ((G.bounds geom).maxy - (G.bounds geom).miny) * 111 ^ 2
        ≤ POLYGON_AREA_THRESHOLD_KM2) := by
    rw [POLYGON_AREA_THRESHOLD_KM2]
    linarith
  simp only [tile_aoi]
  rw [if_neg hne, tile_aoi_rows_eq]
  simp only [grid_cell]

/-- C3 amended: for a polygon whose bounding-box area estimate exceeds
the 2500 km² threshold, tile_aoi performs no discarding at all — it
returns exactly one tile per grid cell, the intersection of the cell with
the polygon, including empty or degenerate (zero-area) intersections. -/
theorem tile_aoi_grid_no_discard {P : Type} (G : GeomOps P) (geom : P)
    (h : 2500 < ((G.bounds geom).maxx - (G.bounds geom).minx)
        * ((G.bounds geom).maxy - (G.bounds geom).miny) * 111 ^ 2) :
    tile_aoi G geom =
      (List.range ⌈(G.bounds geom).maxy - (G.bounds geom).miny⌉.toNat).flatMap fun (r : ℕ) =>
        (List.range ⌈(G.bounds geom).maxx - (G.bounds geom).minx⌉.toNat).map fun (c : ℕ) =>
          G.inter (grid_cell G (G.bounds geom) r c) geom :=
  tile_aoi_over_threshold_eq G geom h

/-- Witness for the amended C3 at the concrete triangle AOI, discharging
the above-threshold hypothesis. -/
theorem tile_aoi_grid_no_discard_witness :
    (2500 < ((sgeom.bounds triAOI).maxx - (sgeom.bounds triAOI).minx)
        * ((sgeom.bounds triAOI).maxy - (sgeom.bounds triAOI).miny) * 111 ^ 2)
    ∧ tile_aoi sgeom triAOI =
        (List.range ⌈(sgeom.bounds triAOI).maxy - (sgeom.bounds triAOI).miny⌉.toNat).flatMap
          fun (r : ℕ) =>
            (List.range ⌈(sgeom.bounds triAOI).maxx
                - (sgeom.bounds triAOI).minx⌉.toNat).map
              fun (c : ℕ) => sgeom.inter (grid_cell sgeom (sgeom.bounds triAOI) r c) triAOI := by
  have hgt : 2500 < ((sgeom.bounds triAOI).maxx - (sgeom.bounds triAOI).minx)
      * ((sgeom.bounds triAOI).maxy - (sgeom.bounds triAOI).miny) * 111 ^ 2 := by
    norm_num [sgeom, triAOI, SPolygon.bounds, min_def, max_def]
  exact ⟨hgt, tile_aoi_grid_no_discard sgeom triAOI hgt⟩

/-- C3 counterexample: the 2°×2° right-triangle AOI exceeds the area
threshold and is gridded into 4 cells, but the cell [1,2]×[1,2] meets the
triangle only in the single point (1,1), and tile_aoi keeps that
degenerate intersection: the fourth returned tile has area exactly 0,
refuting the claim that no returned tile has zero area. -/
theorem tile_aoi_zero_area_tile_cex :
    2500 < ((sgeom.bounds triAOI).maxx - (sgeom.bounds triAOI).minx)
        * ((sgeom.bounds triAOI).maxy - (sgeom.bounds triAOI).miny) * 111 ^ 2
    ∧ (tile_aoi sgeom triAOI).length = 4
    ∧ SPolygon.area ((tile_aoi sgeom triAOI).getD 3 default) = 0 := by
  have hb : sgeom.bounds triAOI = ⟨0, 0, 2, 2⟩ := by
    norm_num [sgeom, triAOI, SPolygon.bounds, min_def, max_def]
  have hL : tile_aoi sgeom triAOI =
      (List.range 2).flatMap fun (r : ℕ) =>
        (List.range 2).map fun (c : ℕ) =>
          sgeom.inter (grid_cell sgeom ⟨0, 0, 2, 2⟩ r c) triAOI := by
    simp only [tile_aoi, hb]
    rw [if_neg (by norm_num [POLYGON_AREA_THRESHOLD_KM2])]
    rw [tile_aoi_rows_eq]
    norm_num [grid_cell]
    rfl
  refine ⟨by rw [hb]; norm_num, ?_, ?_⟩
  · rw [hL]
    rfl
  · rw [hL]
    show SPolygon.area (sgeom.inter (grid_cell sgeom ⟨0, 0, 2, 2⟩ 1 1) triAOI) = 0
    norm_num [grid_cell, sgeom, triAOI, SPolygon.intersection, SPolygon.area,
      orientCCW, shoelaceSum, cycleEdges, clipHalfplane, sideVal, segIntersect,
      min_def, max_def]

/-- C7: when filtering retains no scene at all (empty dispatcher results
or everything removed), process_tiles raises nothing and returns the
empty table that still carries the full column set. -/
theorem process_tiles_empty_table {P : Type} [Inhabited P] (G : GeomOps P)
    (aPs : List (List Props)) (aGs : List (List GeoJSONGeom)) (aIds : List (List String))
    (mva msa : ℚ) (h : mergeTiles aPs aGs aIds mva = ([], [], [])) :
    process_tiles G aPs aGs aIds mva msa = some
      { index_name := "id"
        columns := ["name", "geometry", "view_angle", "acquired", "cloud_cover",
          "sun_elevation", "sun_angle", "satellite_id", "central_lon", "central_lat",
          "local_times", "max_sun_diff"]
        rows := [] } := by
  simp [process_tiles, h, compute_central_coordinates, compute_local_times,
    geometries_to_polygons, List.mapM.loop]

/-- Witness for C7 at a concrete input: one tile whose only scene fails
the quality filter (no ground control), so zero scenes are retained. -/
theorem process_tiles_empty_table_witness :
    mergeTiles [[sceneBad]] [[geomA]] [["s1"]] 3 = ([], [], [])
    ∧ process_tiles sgeom [[sceneBad]] [[geomA]] [["s1"]] 3 0 = some
      { index_name := "id"
        columns := ["name", "geometry", "view_angle", "acquired", "cloud_cover",
          "sun_elevation", "sun_angle", "satellite_id", "central_lon", "central_lat",
          "local_times", "max_sun_diff"]
        rows := [] } := by
  have h : mergeTiles [[sceneBad]] [[geomA]] [["s1"]] 3 = ([], [], []) := by
    simp [mergeTiles, filter_quality, keepScene, sceneBad]
  exact ⟨h, process_tiles_empty_table sgeom [[sceneBad]] [[geomA]] [["s1"]] 3 0 h⟩

/-! Lemmas for the max_cloud validation claim. -/

theorem tile_dates_ne_nil (s e : ℤ) (b : Bool) (h : s ≤ e) : tile_dates s e b ≠ [] := by
  by_cases hc : e - s + 1 ≤ (if b then POINT_DATE_THRESHOLD_DAYS else DATE_RANGE_THRESHOLD_DAYS)
  · rw [tile_dates, dif_pos hc]
    simp
  · rw [tile_dates, dif_neg hc]
    obtain ⟨ce, rest, hL⟩ := (tile_dates_go_spec
      (min (if b then POINT_DATE_THRESHOLD_DAYS else DATE_RANGE_THRESHOLD_DAYS) (e - s + 1)) e
      (by cases b <;>
        simp [POINT_DATE_THRESHOLD_DAYS, DATE_RANGE_THRESHOLD_DAYS] at hc ⊢ <;> omega)
      s h).1
    rw [hL]
    simp

theorem tile_aoi_ne_nil {P : Type} (G : GeomOps P) (geom : P)
    (hb : (G.bounds geom).minx ≤ (G.bounds geom).maxx
      ∧ (G.bounds geom).miny ≤ (G.bounds geom).maxy) :
    tile_aoi G geom ≠ [] := by
  by_cases hc : ((G.bounds geom).maxx - (G.bounds geom).minx)
      * ((G.bounds geom).maxy - (G.bounds geom).miny) * 111 ^ 2
      ≤ POLYGON_AREA_THRESHOLD_KM2
  · simp only [tile_aoi]
    rw [if_pos hc]
    simp
  · simp only [tile_aoi]
    rw [if_neg hc]
    simp only [POLYGON_AREA_THRESHOLD_KM2, not_le] at hc
    have hdxnn : (0 : ℚ) ≤ (G.bounds geom).maxx - (G.bounds geom).minx := by linarith [hb.1]
    have hdynn : (0 : ℚ) ≤ (G.bounds geom).maxy - (G.bounds geom).miny := by linarith [hb.2]
    have hdx : 0 < (G.bounds geom).maxx - (G.bounds geom).minx := by
      rcases lt_or_eq_of_le hdxnn with h | h
      · exact h
      · exfalso
        rw [← h] at hc
        norm_num at hc
    have hdy : 0 < (G.bounds geom).maxy - (G.bounds geom).miny := by
      rcases lt_or_eq_of_le hdynn with h | h
      · exact h
      · exfalso
        rw [← h] at hc
        norm_num at hc
    rw [tile_aoi_rows, dif_pos (by linarith : (G.bounds geom).miny < (G.bounds geom).maxy)]
    rw [tile_cells_row, dif_pos (by linarith : (G.bounds geom).minx < (G.bounds geom).maxx)]
    simp

/-- C8 amended: the prototype build_filters (src/filters.py) rejects any
max_cloud outside [0, 1] with an error before any filter is built, but the
packaged CLI pipeline performs no max_cloud validation at all: with valid
dates it dispatches a nonempty list of searches, every one carrying the
out-of-range max_cloud unchanged. -/
theorem max_cloud_validation_split {P : Type} [Inhabited P] (G : GeomOps P)
    (aois : List P) (s e : ℤ) (mc msa : ℚ) (hmc : mc < 0 ∨ 1 < mc) (hse : s ≤ e)
    (hne : aois ≠ [])
    (hb : ∀ a ∈ aois, (G.bounds a).minx ≤ (G.bounds a).maxx
      ∧ (G.bounds a).miny ≤ (G.bounds a).maxy) :
    (∀ sd ed : String, build_filters sd ed mc
        = Except.error "max_cloud must be between 0 and 1.")
    ∧ cli_main G aois s e mc msa = Except.ok (dispatchList G aois s e mc msa)
    ∧ dispatchList G aois s e mc msa ≠ []
    ∧ ∀ r ∈ dispatchList G aois s e mc msa, r.cloud_lte = mc := by
  refine ⟨?_, ?_, ?_, ?_⟩
  · intro sd ed
    rw [build_filters, if_neg ?_]
    rintro ⟨h1, h2⟩
    rcases hmc with h | h <;> linarith
  · simp only [cli_main, dispatchList]
    rw [if_neg (by omega)]
  · intro hnil
    simp only [dispatchList] at hnil
    rw [List.flatMap_eq_nil_iff] at hnil
    obtain ⟨a, ha⟩ := List.exists_mem_of_ne_nil aois hne
    have htiles : tile_aoi G a ≠ [] := tile_aoi_ne_nil G a (hb a ha)
    obtain ⟨t, ht⟩ := List.exists_mem_of_ne_nil (tile_aoi G a) htiles
    have hmemt : t ∈ aois.flatMap fun aoi => tile_aoi G aoi :=
      List.mem_flatMap.mpr ⟨a, ha, ht⟩
    have := hnil t hmemt
    rw [List.map_eq_nil_iff] at this
    exact tile_dates_ne_nil s e false hse this
  · intro r hr
    simp only [dispatchList, List.mem_flatMap, List.mem_map] at hr
    obtain ⟨t, _, d, _, rfl⟩ := hr
    rfl

/-- Witness for the amended C8 at a concrete input: max_cloud = 2,
discharging the out-of-range, date-order, nonemptiness and bounding-box
hypotheses. -/
theorem max_cloud_validation_split_witness :
    ((2 : ℚ) < 0 ∨ (1 : ℚ) < 2) ∧ (0 : ℤ) ≤ 9 ∧ ([sqSmall] ≠ ([] : List SPolygon))
    ∧ build_filters "2020-01-01" "2020-12-31" 2
        = Except.error "max_cloud must be between 0 and 1."
    ∧ cli_main sgeom [sqSmall] 0 9 2 0 = Except.ok (dispatchList sgeom [sqSmall] 0 9 2 0)
    ∧ dispatchList sgeom [sqSmall] 0 9 2 0 ≠ [] := by
  have hmc : (2 : ℚ) < 0 ∨ (1 : ℚ) < 2 := Or.inr (by norm_num)
  have hbnd : ∀ a ∈ [sqSmall], (sgeom.bounds a).minx ≤ (sgeom.bounds a).maxx
      ∧ (sgeom.bounds a).miny ≤ (sgeom.bounds a).maxy := by
    intro a ha
    simp only [List.mem_singleton] at ha
    subst ha
    constructor <;> norm_num [sgeom, sqSmall, SPolygon.bounds, min_def, max_def]
  have H := max_cloud_validation_split sgeom [sqSmall] 0 9 2 0 hmc (by decide)
    (by simp) hbnd
  exact ⟨hmc, by decide, by simp, H.1 _ _, H.2.1, H.2.2.1⟩

/-- C8 counterexample: at max_cloud = 2 (outside [0, 1]) the CLI pipeline
raises no input error — it dispatches the search with cloud filter
lte = 2 — refuting the claim that any out-of-range max_cloud is fatal
before dispatch. -/
theorem cli_max_cloud_no_validation_cex :
    (1 : ℚ) < 2
    ∧ cli_main sgeom [sqSmall] 0 9 2 0 = Except.ok
        [{ geometry := sqSmall, date_start := 0, date_end := 9,
           cloud_lte := 2, sun_gte := 0 }] := by
  refine ⟨by norm_num, ?_⟩
  have hb : sgeom.bounds sqSmall = ⟨0, 0, 1/10, 1/10⟩ := by
    norm_num [sgeom, sqSmall, SPolygon.bounds, min_def, max_def]
  have ht : tile_aoi sgeom sqSmall = [sqSmall] := by
    simp only [tile_aoi, hb]
    rw [if_pos (by norm_num [POLYGON_AREA_THRESHOLD_KM2])]
  have hd : tile_dates 0 9 false = [(0, 9)] := by
    rw [tile_dates, dif_pos (by decide)]
  simp only [cli_main]
  rw [if_neg (by omega)]
  simp [ht, hd]

/-! Lemmas for the tiling union/overlap claim. -/

theorem grid_index_exists (lo hi v : ℚ) (n : ℕ) (h1 : lo ≤ v) (h2 : v ≤ hi)
    (hn : hi - lo ≤ (n : ℚ)) (hn1 : 1 ≤ n) :
    ∃ c : ℕ, c < n ∧ lo + (c : ℚ) ≤ v ∧ v ≤ lo + (c : ℚ) + 1 := by
  have hd0 : 0 ≤ v - lo := sub_nonneg.mpr h1
  have hfn : 0 ≤ ⌊v - lo⌋ := Int.floor_nonneg.mpr hd0
  refine ⟨min ⌊v - lo⌋.toNat (n - 1), by omega, ?_, ?_⟩
  · have hfl : ((⌊v - lo⌋.toNat : ℕ) : ℚ) ≤ v - lo := by
      have h' : ((⌊v - lo⌋.toNat : ℤ) : ℚ) ≤ v - lo := by
        rw [Int.toNat_of_nonneg hfn]
        exact Int.floor_le _
      exact_mod_cast h'
    have hmin : ((min ⌊v - lo⌋.toNat (n - 1) : ℕ) : ℚ) ≤ ((⌊v - lo⌋.toNat : ℕ) : ℚ) := by
      exact_mod_cast min_le_left _ _
    linarith
  · by_cases hck : ⌊v - lo⌋.toNat ≤ n - 1
    · rw [min_eq_left hck]
      have h' : v - lo < ((⌊v - lo⌋.toNat : ℤ) : ℚ) + 1 := by
        rw [Int.toNat_of_nonneg hfn]
        exact Int.lt_floor_add_one _
      have h'' : v - lo < ((⌊v - lo⌋.toNat : ℕ) : ℚ) + 1 := by exact_mod_cast h'
      linarith
    · rw [min_eq_right (le_of_not_le hck)]
      have hcast : ((n - 1 : ℕ) : ℚ) = (n : ℚ) - 1 := by
        push_cast [Nat.cast_sub hn1]
        ring
      rw [hcast]
      linarith

theorem ceil_toNat_cast_ge (q : ℚ) (h : 0 < q) : q ≤ ((⌈q⌉.toNat : ℕ) : ℚ) := by
  have h1 : ((⌈q⌉.toNat : ℤ) : ℚ) = ((⌈q⌉ : ℤ) : ℚ) := by
    rw [Int.toNat_of_nonneg (le_of_lt (Int.ceil_pos.mpr h))]
  have h2 : q ≤ ((⌈q⌉ : ℤ) : ℚ) := Int.le_ceil q
  rw [← h1] at h2
  exact_mod_cast h2

/-- C4: for every polygon, relative to any point-membership semantics of
the geometry backend that satisfies the interface facts true of real
geometry — bounds bracket the polygon, the grid cells are the rectangles
of the grid, and intersection meets exactly the common points — the union
of the tiles returned by tile_aoi is exactly the polygon (every polygon
point lies in some tile and every tile point lies in the polygon), and
two distinct tiles share only points lying on a grid boundary line.
Exact rational arithmetic subsumes the claim's floating-point
tolerance. -/
theorem tile_aoi_union_overlap_spec {P : Type} (G : GeomOps P) (geom : P)
    (mem : P → ℚ × ℚ → Prop)
    (hBounds : ∀ x : ℚ × ℚ, mem geom x →
      (G.bounds geom).minx ≤ x.1 ∧ x.1 ≤ (G.bounds geom).maxx
        ∧ (G.bounds geom).miny ≤ x.2 ∧ x.2 ≤ (G.bounds geom).maxy)
    (hCell : ∀ r c : ℕ, r < ⌈(G.bounds geom).maxy - (G.bounds geom).miny⌉.toNat →
      c < ⌈(G.bounds geom).maxx - (G.bounds geom).minx⌉.toNat →
      ∀ x : ℚ × ℚ, mem (grid_cell G (G.bounds geom) r c) x ↔
        ((G.bounds geom).minx + (c : ℚ) ≤ x.1
          ∧ x.1 ≤ min ((G.bounds geom).minx + (c : ℚ) + 1) (G.bounds geom).maxx
          ∧ (G.bounds geom).miny + (r : ℚ) ≤ x.2
          ∧ x.2 ≤ min ((G.bounds geom).miny + (r : ℚ) + 1) (G.bounds geom).maxy))
    (hInter : ∀ r c : ℕ, r < ⌈(G.bounds geom).maxy - (G.bounds geom).miny⌉.toNat →
      c < ⌈(G.bounds geom).maxx - (G.bounds geom).minx⌉.toNat →
      ∀ x : ℚ × ℚ, mem (G.inter (grid_cell G (G.bounds geom) r c) geom) x ↔
        mem (grid_cell G (G.bounds geom) r c) x ∧ mem geom x) :
    (∀ x : ℚ × ℚ, mem geom x ↔ ∃ t ∈ tile_aoi G geom, mem t x)
    ∧ (∀ t1 ∈ tile_aoi G geom, ∀ t2 ∈ tile_aoi G geom, t1 ≠ t2 →
        ∀ x : ℚ × ℚ, mem t1 x → mem t2 x →
          ∃ k : ℕ, x.1 = (G.bounds geom).minx + (k : ℚ)
            ∨ x.2 = (G.bounds geom).miny + (k : ℚ)) := by
  by_cases hthr : ((G.bounds geom).maxx - (G.bounds geom).minx)
      * ((G.bounds geom).maxy - (G.bounds geom).miny) * 111 ^ 2
      ≤ POLYGON_AREA_THRESHOLD_KM2
  · have hL : tile_aoi G geom = [geom] := by
      simp only [tile_aoi]
      rw [if_pos hthr]
    constructor
    · intro x
      rw [hL]
      simp
    · intro t1 ht1 t2 ht2 hne
      rw [hL] at ht1 ht2
      simp only [List.mem_singleton] at ht1 ht2
      exact absurd (ht1.trans ht2.symm) hne
  · simp only [POLYGON_AREA_THRESHOLD_KM2, not_le] at hthr
    have hL := tile_aoi_over_threshold_eq G geom hthr
    have hmemtile : ∀ t : P, t ∈ tile_aoi G geom ↔
        ∃ r, r < ⌈(G.bounds geom).maxy - (G.bounds geom).miny⌉.toNat
          ∧ ∃ c, c < ⌈(G.bounds geom).maxx - (G.bounds geom).minx⌉.toNat
            ∧ t = G.inter (grid_cell G (G.bounds geom) r c) geom := by
      intro t
      rw [hL]
      constructor
      · intro ht
        obtain ⟨r, hrmem, ht2⟩ := List.mem_flatMap.mp ht
        obtain ⟨c, hcmem, hteq⟩ := List.mem_map.mp ht2
        exact ⟨r, List.mem_range.mp hrmem, c, List.mem_range.mp hcmem, hteq.symm⟩
      · rintro ⟨r, hr, c, hc, rfl⟩
        exact List.mem_flatMap.mpr ⟨r, List.mem_range.mpr hr,
          List.mem_map.mpr ⟨c, List.mem_range.mpr hc, rfl⟩⟩
    rcases le_or_lt ((G.bounds geom).maxx - (G.bounds geom).minx) 0 with hdx | hdx
    · have hdxy : ((G.bounds geom).maxy - (G.bounds geom).miny) < 0 := by
        by_contra hcon
        push_neg at hcon
        nlinarith [mul_nonpos_of_nonpos_of_nonneg hdx hcon]
      have hTiles : tile_aoi G geom = [] := by
        rw [hL]
        have hR0 : ⌈(G.bounds geom).maxy - (G.bounds geom).miny⌉.toNat = 0 := by
          have : ⌈(G.bounds geom).maxy - (G.bounds geom).miny⌉ ≤ 0 :=
            Int.ceil_le.mpr (by push_cast; linarith)
          omega
        rw [hR0]
        rfl
      have hEmpty : ∀ x : ℚ × ℚ, ¬ mem geom x := by
        intro x hx
        obtain ⟨h1, h2, h3, h4⟩ := hBounds x hx
        have hdx0 : ((G.bounds geom).maxx - (G.bounds geom).minx) = 0 := by linarith
        rw [hdx0] at hthr
        norm_num at hthr
      constructor
      · intro x
        rw [hTiles]
        simp [hEmpty x]
      · intro t1 ht1
        rw [hTiles] at ht1
        simp at ht1
    · have hdy : 0 < ((G.bounds geom).maxy - (G.bounds geom).miny) := by
        by_contra hcon
        push_neg at hcon
        nlinarith [mul_nonpos_of_nonneg_of_nonpos (le_of_lt hdx) hcon]
      have hnC1 : 1 ≤ ⌈(G.bounds geom).maxx - (G.bounds geom).minx⌉.toNat := by
        have := Int.ceil_pos.mpr hdx
        omega
      have hnR1 : 1 ≤ ⌈(G.bounds geom).maxy - (G.bounds geom).miny⌉.toNat := by
        have := Int.ceil_pos.mpr hdy
        omega
      constructor
      · intro x
        constructor
        · intro hx
          obtain ⟨h1, h2, h3, h4⟩ := hBounds x hx
          obtain ⟨c, hc, hcl, hcr⟩ := grid_index_exists (G.bounds geom).minx
            (G.bounds geom).maxx x.1
            ⌈(G.bounds geom).maxx - (G.bounds geom).minx⌉.toNat h1 h2
            (ceil_toNat_cast_ge _ hdx) hnC1
          obtain ⟨r, hr, hrl, hrr⟩ := grid_index_exists (G.bounds geom).miny
            (G.bounds geom).maxy x.2
            ⌈(G.bounds geom).maxy - (G.bounds geom).miny⌉.toNat h3 h4
            (ceil_toNat_cast_ge _ hdy) hnR1
          refine ⟨G.inter (grid_cell G (G.bounds geom) r c) geom,
            (hmemtile _).mpr ⟨r, hr, c, hc, rfl⟩, ?_⟩
          refine (hInter r c hr hc x).mpr ⟨(hCell r c hr hc x).mpr ?_, hx⟩
          exact ⟨hcl, le_min (by linarith) h2, hrl, le_min (by linarith) h4⟩
        · rintro ⟨t, ht, hxt⟩
          obtain ⟨r, hr, c, hc, rfl⟩ := (hmemtile t).mp ht
          exact ((hInter r c hr hc x).mp hxt).2
      · intro t1 ht1 t2 ht2 hne x hx1 hx2
        obtain ⟨r1, hr1, c1, hc1, rfl⟩ := (hmemtile t1).mp ht1
        obtain ⟨r2, hr2, c2, hc2, rfl⟩ := (hmemtile t2).mp ht2
        obtain ⟨B1a, B1b, B1c, B1d⟩ :=
          (hCell r1 c1 hr1 hc1 x).mp ((hInter r1 c1 hr1 hc1 x).mp hx1).1
        obtain ⟨B2a, B2b, B2c, B2d⟩ :=
          (hCell r2 c2 hr2 hc2 x).mp ((hInter r2 c2 hr2 hc2 x).mp hx2).1
        by_cases hcc : c1 = c2
        · have hrr : r1 ≠ r2 := by
            intro hreq
            exact hne (by rw [hcc, hreq])
          rcases lt_or_gt_of_ne hrr with h | h
          · refine ⟨r2, Or.inr ?_⟩
            have hcast : (r1 : ℚ) + 1 ≤ (r2 : ℚ) := by exact_mod_cast h
            have hle := le_trans B1d (min_le_left _ _)
            linarith
          · refine ⟨r1, Or.inr ?_⟩
            have hcast : (r2 : ℚ) + 1 ≤ (r1 : ℚ) := by exact_mod_cast h
            have hle := le_trans B2d (min_le_left _ _)
            linarith
        · rcases lt_or_gt_of_ne hcc with h | h
          · refine ⟨c2, Or.inl ?_⟩
            have hcast : (c1 : ℚ) + 1 ≤ (c2 : ℚ) := by exact_mod_cast h
            have hle := le_trans B1b (min_le_left _ _)
            linarith
          · refine ⟨c1, Or.inl ?_⟩
            have hcast : (c2 : ℚ) + 1 ≤ (c1 : ℚ) := by exact_mod_cast h
            have hle := le_trans B2b (min_le_left _ _)
            linarith

theorem rect_contains_iff (a b a2 b2 : ℚ) (h1 : a < a2) (h2 : b < b2) (x : ℚ × ℚ) :
    SPolygon.contains ⟨[(a, b), (a2, b), (a2, b2), (a, b2)]⟩ x ↔
      a ≤ x.1 ∧ x.1 ≤ a2 ∧ b ≤ x.2 ∧ x.2 ≤ b2 := by
  have hsl : shoelaceSum [(a, b), (a2, b), (a2, b2), (a, b2)] = 2 * ((a2 - a) * (b2 - b)) := by
    simp [shoelaceSum, cycleEdges]
    ring
  have hpos : ¬ (shoelaceSum [(a, b), (a2, b), (a2, b2), (a, b2)] < 0) := by
    rw [hsl]
    push_neg
    nlinarith
  simp only [SPolygon.contains, orientCCW, if_neg hpos, cycleEdges]
  simp [sideVal]
  constructor
  · rintro ⟨g1, g2, g3, g4⟩
    refine ⟨?_, ?_, ?_, ?_⟩ <;> nlinarith
  · rintro ⟨g1, g2, g3, g4⟩
    refine ⟨?_, ?_, ?_, ?_⟩ <;> nlinarith

theorem sqTall_bounds : sgeom.bounds sqTall = ⟨0, 0, 3/10, 3/2⟩ := by
  norm_num [sgeom, sqTall, SPolygon.bounds, min_def, max_def]

theorem sqTall_nR : ⌈(sgeom.bounds sqTall).maxy - (sgeom.bounds sqTall).miny⌉.toNat = 2 := by
  rw [sqTall_bounds]
  show (⌈(3/2 : ℚ) - 0⌉).toNat = 2
  have h : ⌈(3/2 : ℚ) - 0⌉ = 2 := by
    rw [Int.ceil_eq_iff] <;> norm_num
  rw [h]
  rfl

theorem sqTall_nC : ⌈(sgeom.bounds sqTall).maxx - (sgeom.bounds sqTall).minx⌉.toNat = 1 := by
  rw [sqTall_bounds]
  show (⌈(3/10 : ℚ) - 0⌉).toNat = 1
  have h : ⌈(3/10 : ℚ) - 0⌉ = 1 := by
    rw [Int.ceil_eq_iff] <;> norm_num
  rw [h]
  rfl

theorem sqTall_cell0 : grid_cell sgeom (sgeom.bounds sqTall) 0 0 =
    ⟨[(0, 0), (3/10, 0), (3/10, 1), (0, 1)]⟩ := by
  rw [sqTall_bounds]
  norm_num [grid_cell, sgeom, min_def]

theorem sqTall_cell1 : grid_cell sgeom (sgeom.bounds sqTall) 1 0 =
    ⟨[(0, 1), (3/10, 1), (3/10, 3/2), (0, 3/2)]⟩ := by
  rw [sqTall_bounds]
  norm_num [grid_cell, sgeom, min_def]

set_option maxRecDepth 16000 in
theorem sqTall_int0 :
    sgeom.inter (⟨[(0, 0), (3/10, 0), (3/10, 1), (0, 1)]⟩ : SPolygon) sqTall =
      ⟨[(0, 0), (3/10, 0), (3/10, 1), (0, 1)]⟩ := by
  norm_num [sgeom, sqTall, SPolygon.intersection, orientCCW, shoelaceSum, cycleEdges,
    clipHalfplane, sideVal, segIntersect]

set_option maxRecDepth 16000 in
theorem sqTall_int1 :
    sgeom.inter (⟨[(0, 1), (3/10, 1), (3/10, 3/2), (0, 3/2)]⟩ : SPolygon) sqTall =
      ⟨[(0, 1), (3/10, 1), (3/10, 3/2), (0, 3/2)]⟩ := by
  norm_num [sgeom, sqTall, SPolygon.intersection, orientCCW, shoelaceSum, cycleEdges,
    clipHalfplane, sideVal, segIntersect]

theorem sqTall_contains_iff (x : ℚ × ℚ) :
    SPolygon.contains sqTall x ↔ 0 ≤ x.1 ∧ x.1 ≤ 3/10 ∧ 0 ≤ x.2 ∧ x.2 ≤ 3/2 := by
  have h := rect_contains_iff 0 0 (3/10) (3/2) (by norm_num) (by norm_num) x
  rw [show sqTall = ⟨[(0, 0), (3/10, 0), (3/10, 3/2), (0, 3/2)]⟩ from rfl]
  exact h

theorem cell0_contains_iff (x : ℚ × ℚ) :
    SPolygon.contains ⟨[(0, 0), (3/10, 0), (3/10, 1), (0, 1)]⟩ x ↔
      0 ≤ x.1 ∧ x.1 ≤ 3/10 ∧ 0 ≤ x.2 ∧ x.2 ≤ 1 :=
  rect_contains_iff 0 0 (3/10) 1 (by norm_num) (by norm_num) x

theorem cell1_contains_iff (x : ℚ × ℚ) :
    SPolygon.contains ⟨[(0, 1), (3/10, 1), (3/10, 3/2), (0, 3/2)]⟩ x ↔
      0 ≤ x.1 ∧ x.1 ≤ 3/10 ∧ 1 ≤ x.2 ∧ x.2 ≤ 3/2 :=
  rect_contains_iff 0 1 (3/10) (3/2) (by norm_num) (by norm_num) x

theorem sqTall_hB : ∀ x : ℚ × ℚ, SPolygon.contains sqTall x →
    (sgeom.bounds sqTall).minx ≤ x.1 ∧ x.1 ≤ (sgeom.bounds sqTall).maxx
      ∧ (sgeom.bounds sqTall).miny ≤ x.2 ∧ x.2 ≤ (sgeom.bounds sqTall).maxy := by
  intro x hx
  rw [sqTall_bounds]
  exact (sqTall_contains_iff x).mp hx

theorem sqTall_hC : ∀ r c : ℕ,
    r < ⌈(sgeom.bounds sqTall).maxy - (sgeom.bounds sqTall).miny⌉.toNat →
    c < ⌈(sgeom.bounds sqTall).maxx - (sgeom.bounds sqTall).minx⌉.toNat →
    ∀ x : ℚ × ℚ, SPolygon.contains (grid_cell sgeom (sgeom.bounds sqTall) r c) x ↔
      ((sgeom.bounds sqTall).minx + (c : ℚ) ≤ x.1
        ∧ x.1 ≤ min ((sgeom.bounds sqTall).minx + (c : ℚ) + 1) (sgeom.bounds sqTall).maxx
        ∧ (sgeom.bounds sqTall).miny + (r : ℚ) ≤ x.2
        ∧ x.2 ≤ min ((sgeom.bounds sqTall).miny + (r : ℚ) + 1) (sgeom.bounds sqTall).maxy) := by
  intro r c hr hc x
  rw [sqTall_nR] at hr
  rw [sqTall_nC] at hc
  interval_cases r <;> interval_cases c
  · rw [sqTall_cell0, sqTall_bounds, cell0_contains_iff x]
    norm_num [min_def]
  · rw [sqTall_cell1, sqTall_bounds, cell1_contains_iff x]
    norm_num [min_def]

theorem sqTall_hI : ∀ r c : ℕ,
    r < ⌈(sgeom.bounds sqTall).maxy - (sgeom.bounds sqTall).miny⌉.toNat →
    c < ⌈(sgeom.bounds sqTall).maxx - (sgeom.bounds sqTall).minx⌉.toNat →
    ∀ x : ℚ × ℚ,
      SPolygon.contains (sgeom.inter (grid_cell sgeom (sgeom.bounds sqTall) r c) sqTall) x ↔
        SPolygon.contains (grid_cell sgeom (sgeom.bounds sqTall) r c) x
          ∧ SPolygon.contains sqTall x := by
  intro r c hr hc x
  rw [sqTall_nR] at hr
  rw [sqTall_nC] at hc
  interval_cases r <;> interval_cases c
  · rw [sqTall_cell0, sqTall_int0]
    constructor
    · intro h
      refine ⟨h, (sqTall_contains_iff x).mpr ?_⟩
      obtain ⟨u1, u2, u3, u4⟩ := (cell0_contains_iff x).mp h
      exact ⟨u1, u2, u3, by linarith⟩
    · exact fun h => h.1
  · rw [sqTall_cell1, sqTall_int1]
    constructor
    · intro h
      refine ⟨h, (sqTall_contains_iff x).mpr ?_⟩
      obtain ⟨u1, u2, u3, u4⟩ := (cell1_contains_iff x).mp h
      exact ⟨u1, u2, by linarith, u4⟩
    · exact fun h => h.1

/-- Witness for C4 at a concrete input: the thin tall AOI, whose grid has
two cells; the interface hypotheses (bounds, cells, intersection) are
discharged by direct computation, and the union equivalence is
instantiated at the interior boundary point (1/5, 1). -/
theorem tile_aoi_union_overlap_spec_witness :
    SPolygon.contains sqTall (1/5, 1)
    ∧ (SPolygon.contains sqTall (1/5, 1)
        ↔ ∃ t ∈ tile_aoi sgeom sqTall, SPolygon.contains t (1/5, 1)) :=
  ⟨(sqTall_contains_iff (1/5, 1)).mpr (by norm_num),
   (tile_aoi_union_overlap_spec sgeom sqTall SPolygon.contains
      sqTall_hB sqTall_hC sqTall_hI).1 (1/5, 1)⟩

end PlanetOverlap
